import Mathlib

/-!
# Verification of the OpenAudit Finding Normalization & Triage Engine

A shallow embedding of `agents/triage.py` (the finding normalization,
deduplication, filtering and ranking core), together with theorems checking
the specification's claims about it.

Modelling conventions:
* Python values flowing through the triage pipeline (JSON-like data) are
  embedded as `PyVal`; Python dicts are association lists preserving
  insertion order, as Python dicts do.
* Python floats are modelled as exact rationals (`ℚ`); `round` is modelled as
  round-half-to-even on rationals, matching Python's `round` on the values
  the code manipulates.
* File-system and network effects are explicit parameters: the filter config
  (loaded by `_load_filters`) is a `cfg` argument, environment variables are
  a `TriageEnv` record, source files for snippet attachment are a
  `String → Option (List String)` map, and the external classifier HTTP call
  is an `HttpOutcome` together with an abstract JSON parser.
* Exceptions are modelled with `Except PyError`.
-/

/-- A Python/JSON-like value, as manipulated by `agents/triage.py`.
Dicts are insertion-ordered association lists with string keys (the keys this
code ever creates or reads are strings). -/
inductive PyVal where
  | none
  | bool (b : Bool)
  | int (n : Int)
  | float (q : ℚ)
  | str (s : String)
  | list (xs : List PyVal)
  | dict (entries : List (String × PyVal))

/-- A Python dict with string keys, in insertion order. -/
abbrev PyDict := List (String × PyVal)

mutual

/-- Structural equality test on `PyVal` (Python `==` on JSON-like data). -/
def PyVal.beq : PyVal → PyVal → Bool
  | .none, .none => true
  | .bool a, .bool b => a == b
  | .int a, .int b => a == b
  | .float a, .float b => a == b
  | .str a, .str b => a == b
  | .list as, .list bs => PyVal.beqList as bs
  | .dict as, .dict bs => PyVal.beqDict as bs
  | _, _ => false

/-- Elementwise `PyVal.beq` on lists. -/
def PyVal.beqList : List PyVal → List PyVal → Bool
  | [], [] => true
  | a :: as, b :: bs => PyVal.beq a b && PyVal.beqList as bs
  | _, _ => false

/-- Elementwise `PyVal.beq` on dict entry lists. -/
def PyVal.beqDict : List (String × PyVal) → List (String × PyVal) → Bool
  | [], [] => true
  | (k, a) :: as, (k', b) :: bs => k == k' && PyVal.beq a b && PyVal.beqDict as bs
  | _, _ => false

end

mutual

/-- `PyVal.beq` is reflexive. -/
theorem PyVal.beq_refl : (a : PyVal) → PyVal.beq a a = true
  | .none => rfl
  | .bool b => by simp [PyVal.beq]
  | .int n => by simp [PyVal.beq]
  | .float q => by simp [PyVal.beq]
  | .str s => by simp [PyVal.beq]
  | .list xs => by simpa [PyVal.beq] using PyVal.beqList_refl xs
  | .dict es => by simpa [PyVal.beq] using PyVal.beqDict_refl es

/-- `PyVal.beqList` is reflexive. -/
theorem PyVal.beqList_refl : (xs : List PyVal) → PyVal.beqList xs xs = true
  | [] => rfl
  | a :: as => by simp [PyVal.beqList, PyVal.beq_refl a, PyVal.beqList_refl as]

/-- `PyVal.beqDict` is reflexive. -/
theorem PyVal.beqDict_refl : (es : List (String × PyVal)) → PyVal.beqDict es es = true
  | [] => rfl
  | (k, v) :: rest => by
      simp [PyVal.beqDict, PyVal.beq_refl v, PyVal.beqDict_refl rest]

end

/-- Python truthiness of a value (`bool(v)`). -/
def pyTruthy : PyVal → Bool
  | .none => false
  | .bool b => b
  | .int n => n != 0
  | .float q => q != 0
  | .str s => !s.isEmpty
  | .list xs => !xs.isEmpty
  | .dict d => !d.isEmpty

/-- Python `a or b`: `a` if truthy, else `b`. -/
def pyOr (a b : PyVal) : PyVal := if pyTruthy a then a else b

/-- Python `dict.get(k)`: the stored value, or `None` when the key is
missing. -/
def pyGet (d : PyDict) (k : String) : PyVal := (List.lookup k d).getD .none

/-- Python `d[k] = v` on a dict: replaces the value in place when the key is
present (keeping its position), appends otherwise. -/
def setKey : PyDict → String → PyVal → PyDict
  | [], k, v => [(k, v)]
  | (k', v') :: rest, k, v =>
      if k' = k then (k, v) :: rest else (k', v') :: setKey rest k v

/-- Reads a string key out of a `PyVal` that may not be a dict
(`location.get("file")` on location records). Non-dicts give `None`. -/
def pyGetV (v : PyVal) (k : String) : PyVal :=
  match v with
  | .dict d => pyGet d k
  | _ => .none

/-- The entry list of a dict-valued `PyVal` (`{}` fallback used by
expressions like `finding.get("raw") or {}`); non-dicts give the empty
dict. -/
def dictOf : PyVal → PyDict
  | .dict d => d
  | _ => []

/-- The elements of a list-valued `PyVal` (`[]` fallback used by expressions
like `finding.get("locations") or []`); non-lists give the empty list. -/
def listOf : PyVal → List PyVal
  | .list xs => xs
  | _ => []

/-! ## Character/string helpers

Lean's built-in `String` functions do not reduce well inside the kernel, so
the ASCII-level operations the source uses (`.strip()`, `.upper()`,
`.lower()`, `.isdigit()`, `.isalnum()`, substring tests) are implemented
over `String.data` character lists. -/

/-- ASCII uppercase of one character (`str.upper` on the ASCII inputs the
severity/confidence vocabularies use). -/
def chUpper (c : Char) : Char :=
  if 97 ≤ c.toNat && c.toNat ≤ 122 then Char.ofNat (c.toNat - 32) else c

/-- ASCII lowercase of one character. -/
def chLower (c : Char) : Char :=
  if 65 ≤ c.toNat && c.toNat ≤ 90 then Char.ofNat (c.toNat + 32) else c

/-- Python `str.isspace` characters recognised by `str.strip()` (ASCII). -/
def chIsSpace (c : Char) : Bool :=
  c.toNat = 32 || c.toNat = 9 || c.toNat = 10 || c.toNat = 13 ||
    c.toNat = 11 || c.toNat = 12

/-- Python `str.isdigit` for one ASCII character. -/
def chIsDigit (c : Char) : Bool := 48 ≤ c.toNat && c.toNat ≤ 57

/-- Python `str.isalnum` for one ASCII character. -/
def chIsAlnum (c : Char) : Bool :=
  (48 ≤ c.toNat && c.toNat ≤ 57) || (65 ≤ c.toNat && c.toNat ≤ 90) ||
    (97 ≤ c.toNat && c.toNat ≤ 122)

/-- Python `str.upper()`. -/
def strUpper (s : String) : String := ⟨s.data.map chUpper⟩

/-- Python `str.lower()`. -/
def strLower (s : String) : String := ⟨s.data.map chLower⟩

/-- Python `str.strip()`: remove leading and trailing whitespace. -/
def strStrip (s : String) : String :=
  ⟨((s.data.dropWhile chIsSpace).reverse.dropWhile chIsSpace).reverse⟩

/-- Python `str.rstrip()`: remove trailing whitespace. -/
def strRStrip (s : String) : String :=
  ⟨(s.data.reverse.dropWhile chIsSpace).reverse⟩

/-- Python `pat in s` for nonempty `pat`: contiguous substring test. -/
def listContainsSeg (hay pat : List Char) : Bool :=
  match hay with
  | [] => pat.isEmpty
  | _ :: t => pat.isPrefixOf hay || listContainsSeg t pat

/-- Python `str.isdigit()` on a whole string: nonempty and all digits. -/
def strIsDigit (s : String) : Bool := !s.isEmpty && s.data.all chIsDigit

/-- Numeric value of a digit list (most significant first). -/
def digitsToNat (cs : List Char) : Nat :=
  cs.foldl (fun a c => a * 10 + (c.toNat - 48)) 0

/-- Python `int(s)` on a string that passed `isdigit()`. -/
def strToInt (s : String) : Int := (digitsToNat s.data : Int)

/-- Python `str.split(",")` on one comma character. -/
def splitOnComma (s : String) : List String :=
  (s.data.splitOnP (· = ',')).map fun cs => (⟨cs⟩ : String)

/-- Python `float(text)` on a plain decimal literal: optional sign, digits,
optional fractional part. (Exponents, `inf`/`nan` and underscores are not
modelled; the confidence strings this code parses are plain decimals.) -/
def pyParseFloat (s : String) : Option ℚ :=
  let cs := s.data
  let signAndRest : Int × List Char :=
    match cs with
    | '+' :: t => (1, t)
    | '-' :: t => (-1, t)
    | _ => (1, cs)
  let sign := signAndRest.1
  let rest := signAndRest.2
  let intPart := rest.takeWhile chIsDigit
  let afterInt := rest.dropWhile chIsDigit
  match afterInt with
  | [] =>
      if intPart.isEmpty then Option.none
      else some ((sign * digitsToNat intPart : Int) : ℚ)
  | '.' :: fracPart =>
      if fracPart.all chIsDigit && !(intPart.isEmpty && fracPart.isEmpty) then
        some ((sign : ℚ) * ((digitsToNat intPart : ℚ) +
          (digitsToNat fracPart : ℚ) / ((10 : ℚ) ^ fracPart.length)))
      else Option.none
  | _ => Option.none

/-- Python `round` to an integer: round half to even (the rationals at stake
are exact, so this models `round` on the corresponding binary floats except
on values that are representable only approximately). -/
def pyRound (q : ℚ) : Int :=
  if q - ⌊q⌋ < 1 / 2 then ⌊q⌋
  else if 1 / 2 < q - ⌊q⌋ then ⌊q⌋ + 1
  else if ⌊q⌋ % 2 = 0 then ⌊q⌋ else ⌊q⌋ + 1

/-- Python `int(x)` on a float: truncation toward zero. -/
def pyTrunc (q : ℚ) : Int := if 0 ≤ q then ⌊q⌋ else -⌊-q⌋

/-! ## Severity/Confidence Canon (`triage.py` lines 12–41, 307–335) -/

/-- `SEVERITY_ALIASES` table. -/
def SEVERITY_ALIASES : List (String × String) :=
  [("CRIT", "CRITICAL"), ("CRITICAL", "CRITICAL"), ("SEVERE", "CRITICAL"),
   ("HIGH", "HIGH"), ("MAJOR", "HIGH"),
   ("MEDIUM", "MEDIUM"), ("MED", "MEDIUM"), ("MODERATE", "MEDIUM"),
   ("LOW", "LOW"), ("MINOR", "LOW"),
   ("INFO", "INFORMATIONAL"), ("INFORMATIONAL", "INFORMATIONAL"),
   ("NONE", "INFORMATIONAL")]

/-- `CONFIDENCE_ALIASES` table. -/
def CONFIDENCE_ALIASES : List (String × ℚ) :=
  [("LOW", 3 / 10), ("MEDIUM", 6 / 10), ("HIGH", 85 / 100),
   ("CERTAIN", 95 / 100)]

/-- `SEVERITY_SCORES` table. -/
def SEVERITY_SCORES : List (String × Int) :=
  [("CRITICAL", 4), ("HIGH", 3), ("MEDIUM", 2), ("LOW", 1),
   ("INFORMATIONAL", 0)]

/-- `_normalize_severity`: canonicalize a severity value through
`SEVERITY_ALIASES` (case-insensitive, whitespace-trimmed); anything
unrecognised or non-string yields `None`. -/
def _normalize_severity (value : PyVal) : Option String :=
  match value with
  | .str s => List.lookup (strUpper (strStrip s)) SEVERITY_ALIASES
  | _ => Option.none

/-- The clamping tail of `_normalize_confidence`: scale percentages in
`(1, 100]` by `1/100`, then clamp into `[0, 1]`. -/
def confScale (q : ℚ) : ℚ :=
  let q' := if 1 < q ∧ q ≤ 100 then q / 100 else q
  max 0 (min 1 q')

/-- `_normalize_confidence`: numeric values are scaled/clamped into `[0,1]`
(Python `bool` counts as numeric), strings go through `CONFIDENCE_ALIASES`
or `float()` parsing, everything else yields `None`. -/
def _normalize_confidence (value : PyVal) : Option ℚ :=
  match value with
  | .int n => some (confScale (n : ℚ))
  | .float q => some (confScale q)
  | .bool b => some (confScale (if b then 1 else 0))
  | .str s =>
      let text := strUpper (strStrip s)
      match List.lookup text CONFIDENCE_ALIASES with
      | some q => some q
      | Option.none =>
          match pyParseFloat text with
          | some q => some (confScale q)
          | Option.none => Option.none
  | _ => Option.none

/-! ## Location Extractor (`triage.py` lines 338–424) -/

/-- Is this value Python `None`? -/
def PyVal.isNone : PyVal → Bool
  | .none => true
  | _ => false

/-- `_add_location`: append one location record unless file, line and span
are all `None`; only truthy `file`/`span` and non-`None` `line` are
stored. -/
def _add_location (locations : List PyVal) (file_path line span : PyVal) :
    List PyVal :=
  if file_path.isNone && line.isNone && span.isNone then locations
  else
    let location : PyDict := []
    let location := if pyTruthy file_path then setKey location "file" file_path else location
    let location := if !line.isNone then setKey location "line" line else location
    let location := if pyTruthy span then setKey location "span" span else location
    locations ++ [.dict location]

/-- Digit-string line values are converted with `int()`, everything else is
left alone (`if isinstance(line, str) and line.isdigit(): line = int(line)`). -/
def coerceLine (line : PyVal) : PyVal :=
  match line with
  | .str s => if strIsDigit s then .int (strToInt s) else .str s
  | v => v

/-- Does this value satisfy Python `isinstance(v, int)`? (`bool` is a
subclass of `int`.) -/
def isPyInt : PyVal → Bool
  | .int _ => true
  | .bool _ => true
  | _ => false

/-- `_extract_locations_from_mapping`: pull locations out of a
`source_mapping`-shaped dict, handling `lines` given as a list, an int, a
digit string, or anything else (no line). -/
def _extract_locations_from_mapping (locations : List PyVal)
    (mapping : PyDict) : List PyVal :=
  let file_path := pyOr (pyGet mapping "filename_relative")
    (pyOr (pyGet mapping "filename")
      (pyOr (pyGet mapping "file") (pyGet mapping "contract_path")))
  let lines := pyOr (pyGet mapping "lines") (pyGet mapping "line")
  let span := pyOr (pyGet mapping "src") (pyGet mapping "source")
  match lines with
  | .list ls =>
      ls.foldl (fun acc line0 =>
        let line := coerceLine line0
        if isPyInt line then _add_location acc file_path line span else acc)
        locations
  | .int n => _add_location locations file_path (.int n) span
  | .bool b => _add_location locations file_path (.bool b) span
  | .str s =>
      if strIsDigit s then _add_location locations file_path (.int (strToInt s)) span
      else _add_location locations file_path .none span
  | _ => _add_location locations file_path .none span

/-- The `(file, line, span)` dedup key of one location record. -/
def locTriple (l : PyVal) : PyVal × PyVal × PyVal :=
  (pyGetV l "file", pyGetV l "line", pyGetV l "span")

/-- Python `==` on `(file, line, span)` triples. -/
def tripleBeq (a b : PyVal × PyVal × PyVal) : Bool :=
  PyVal.beq a.1 b.1 && PyVal.beq a.2.1 b.2.1 && PyVal.beq a.2.2 b.2.2

/-- The final pass of `_extract_locations`: keep the first location for each
`(file, line, span)` triple, preserving order (`seen` set + `unique` list). -/
def uniqueLocs : List PyVal → List (PyVal × PyVal × PyVal) → List PyVal
  | [], _ => []
  | l :: ls, seen =>
      if seen.any (fun s => tripleBeq s (locTriple l)) then uniqueLocs ls seen
      else l :: uniqueLocs ls (locTriple l :: seen)

/-- `_extract_locations`: probe `raw.instances`, `raw.source_mapping` /
`raw.sourceMapping`, and `elements[*].source_mapping`, concatenate, then
deduplicate by `(file, line, span)` preserving first-seen order. -/
def _extract_locations (finding : PyDict) : List PyVal :=
  let raw := dictOf (pyOr (pyGet finding "raw") (.dict []))
  let locations : List PyVal := []
  let locations := match pyGet raw "instances" with
    | .list instances =>
        instances.foldl (fun acc inst =>
          match inst with
          | .dict entry =>
              let file_path := pyOr (pyGet entry "contract_path") (pyGet entry "file")
              let line := coerceLine (pyOr (pyGet entry "line_no") (pyGet entry "line"))
              let span := pyOr (pyGet entry "src") (pyGet entry "src_char")
              _add_location acc file_path line span
          | _ => acc) locations
    | _ => locations
  let locations := match pyOr (pyGet raw "source_mapping") (pyGet raw "sourceMapping") with
    | .dict m => _extract_locations_from_mapping locations m
    | _ => locations
  let locations := match pyGet finding "elements" with
    | .list elements =>
        elements.foldl (fun acc element =>
          match element with
          | .dict el =>
              match pyOr (pyGet el "source_mapping") (pyGet el "sourceMapping") with
              | .dict m => _extract_locations_from_mapping acc m
              | _ => acc
          | _ => acc) locations
    | _ => locations
  uniqueLocs locations []

/-- `_has_evidence`: a nonempty `locations` list, a nonempty `raw.instances`
list, or a `raw.source_mapping` dict with truthy `lines`. -/
def _has_evidence (finding : PyDict) : Bool :=
  (match pyGet finding "locations" with
   | .list xs => !xs.isEmpty
   | _ => false) ||
  (let raw := dictOf (pyOr (pyGet finding "raw") (.dict []))
   (match pyGet raw "instances" with
    | .list xs => !xs.isEmpty
    | _ => false) ||
   (match pyOr (pyGet raw "source_mapping") (pyGet raw "sourceMapping") with
    | .dict m => pyTruthy (pyGet m "lines")
    | _ => false))

/-! ## Finding Normalizer (`triage.py` lines 441–469 and 531–546)

`_normalize_existing_finding` mutates a copied dict field by field; each
assignment is one `nef*` step below, applied in source order. -/

/-- Title default: `title or check or name or "Untitled finding"`. -/
def nefTitle (d : PyDict) : PyDict :=
  setKey d "title" (pyOr (pyGet d "title")
    (pyOr (pyGet d "check") (pyOr (pyGet d "name") (.str "Untitled finding"))))

/-- Severity canonicalization with fallback to `impact`, defaulting to
`LOW`. -/
def nefSeverity (d : PyDict) : PyDict :=
  setKey d "severity" (.str (match _normalize_severity (pyGet d "severity") with
    | some c => c
    | Option.none => (_normalize_severity (pyGet d "impact")).getD "LOW"))

/-- When `impact` itself parses as a severity, it is rewritten to the
canonical form. -/
def nefImpact (d : PyDict) : PyDict :=
  match _normalize_severity (pyGet d "impact") with
  | some c => setKey d "impact" (.str c)
  | Option.none => d

/-- Confidence is re-normalized in place (`None` when unparseable). -/
def nefConfidence (d : PyDict) : PyDict :=
  setKey d "confidence" (match _normalize_confidence (pyGet d "confidence") with
    | some q => .float q
    | Option.none => .none)

/-- `locations` is extracted from the raw record unless already populated
(truthy). -/
def nefLocations (d : PyDict) : PyDict :=
  if pyTruthy (pyGet d "locations") then d
  else setKey d "locations" (.list (_extract_locations d))

/-- A list-valued `sources` field is filtered to its truthy entries. -/
def nefSources (d : PyDict) : PyDict :=
  match pyGet d "sources" with
  | .list xs => setKey d "sources" (.list (xs.filter pyTruthy))
  | _ => d

/-- `_normalize_existing_finding`: the in-place re-normalization applied to
every already-shaped finding dict. -/
def _normalize_existing_finding (d : PyDict) : PyDict :=
  nefSources (nefLocations (nefConfidence (nefImpact (nefSeverity (nefTitle d)))))

/-- `_normalize_finding`: wrap one raw tool record into the canonical shape
(retaining the record under `raw`) and re-normalize it. -/
def _normalize_finding (finding : PyDict) (source : PyVal)
    (severity : PyVal := .none) : PyDict :=
  _normalize_existing_finding
    [("title", pyOr (pyGet finding "title")
        (pyOr (pyGet finding "check") (pyGet finding "name"))),
     ("impact", pyOr (pyGet finding "impact")
        (pyOr (pyGet finding "severity") severity)),
     ("severity", pyOr (pyGet finding "severity") severity),
     ("confidence", pyOr (pyGet finding "confidence") (pyGet finding "certainty")),
     ("description", pyOr (pyGet finding "description") (pyGet finding "details")),
     ("elements", (List.lookup "elements" finding).getD (.list [])),
     ("source", source),
     ("raw", .dict finding)]

/-! ## Ranker and Deduplicator (`triage.py` lines 472–528, 595–597) -/

/-- `_confidence_score`: quantize a confidence value into buckets `0..3`;
absent/unparseable confidence scores bucket `1`. -/
def _confidence_score (value : PyVal) : Int :=
  match _normalize_confidence value with
  | Option.none => 1
  | some q => pyRound (q * 3)

/-- `_rank_score`: `severity_score * 3 + confidence_score`, severity
defaulting to `LOW` and unknown severities scoring `1`. -/
def _rank_score (finding : PyDict) : Int :=
  let severity := (_normalize_severity (pyGet finding "severity")).getD "LOW"
  let severity_score := (List.lookup severity SEVERITY_SCORES).getD 1
  severity_score * 3 + _confidence_score (pyGet finding "confidence")

/-- Decimal digits of a natural number (fuel-based so it reduces in the
kernel). -/
def natReprAux : Nat → Nat → List Char
  | 0, _ => []
  | fuel + 1, n => if n = 0 then [] else natReprAux fuel (n / 10) ++ [Char.ofNat (48 + n % 10)]

/-- Decimal representation of a natural number. -/
def natRepr (n : Nat) : String := if n = 0 then "0" else ⟨natReprAux (n + 1) n⟩

/-- Decimal representation of an integer. -/
def intRepr (n : Int) : String :=
  if n < 0 then "-" ++ natRepr (-n).toNat else natRepr n.toNat

/-- Python `str(v)` as used on dedup-key line numbers and filter patterns.
Strings, ints, bools and `None` match Python exactly; floats, lists and
dicts (which never carry the identifiers or line numbers this is applied to
in practice) are given placeholder renderings. -/
def pyStrOf : PyVal → String
  | .str s => s
  | .int n => intRepr n
  | .bool true => "True"
  | .bool false => "False"
  | .none => "None"
  | .float q => intRepr q.num ++ "/" ++ natRepr q.den
  | .list _ => "[...]"
  | .dict _ => "{...}"

/-- The dedup key of `_dedupe_findings.key_for`:
`lowercase(stripped title) + "|" + lowercase(first location file) + "|" +
str(first location line)`, with empty strings for missing pieces. -/
def key_for (finding : PyDict) : String :=
  let title := strLower (strStrip (pyStrOf (pyOr (pyGet finding "title") (.str ""))))
  let locations := listOf (pyOr (pyGet finding "locations") (.list []))
  let fileLine : String × String :=
    match locations with
    | [] => ("", "")
    | first :: _ =>
        (strLower (pyStrOf (pyOr (pyGetV first "file") (.str ""))),
         pyStrOf (pyOr (pyGetV first "line") (.str "")))
  title ++ "|" ++ fileLine.1 ++ "|" ++ fileLine.2

/-- The gap-filling loop of the dedup merge: adopt `secondary`'s value for
each of `description`/`impact`/`remediation`/`repro` that `m` lacks. -/
def gapFill (secondary m : PyDict) : PyDict :=
  ["description", "impact", "remediation", "repro"].foldl
    (fun m field =>
      if !pyTruthy (pyGet m field) && pyTruthy (pyGet secondary field) then
        setKey m field (pyGet secondary field)
      else m) m

/-- The merge of two findings sharing a dedup key: start from `primary`,
concatenate the two `locations` lists, collect the ordered union of the two
`source` tags, and fill `description`/`impact`/`remediation`/`repro` gaps
from `secondary` without overwriting (`gapFill`). -/
def mergeFindings (primary secondary : PyDict) : PyDict :=
  let merged := primary
  let merged_locations :=
    listOf (pyOr (pyGet primary "locations") (.list [])) ++
      listOf (pyOr (pyGet secondary "locations") (.list []))
  let merged := setKey merged "locations" (.list merged_locations)
  let sources := [pyGet primary "source", pyGet secondary "source"].foldl
    (fun acc source =>
      if pyTruthy source && !(acc.any fun s => PyVal.beq s source) then acc ++ [source]
      else acc) ([] : List PyVal)
  let merged := setKey merged "sources" (.list sources)
  gapFill secondary merged

/-- Assoc-list update keyed by strings, for the `deduped` dict of
`_dedupe_findings` (replace in place, append when new). -/
def assocSetD : List (String × PyDict) → String → PyDict → List (String × PyDict)
  | [], k, v => [(k, v)]
  | (k', v') :: rest, k, v =>
      if k' = k then (k, v) :: rest else (k', v') :: assocSetD rest k v

/-- `_dedupe_findings`: fold the findings into a dict keyed by `key_for`; on
collision the higher `_rank_score` becomes primary (ties keep the
earlier/current entry) and the pair is merged; return the dict's values in
insertion order. -/
def _dedupe_findings (findings : List PyDict) : List PyDict :=
  (findings.foldl (fun deduped finding =>
    let key := key_for finding
    match List.lookup key deduped with
    | Option.none => deduped ++ [(key, finding)]
    | some current =>
        let ps : PyDict × PyDict :=
          if _rank_score current < _rank_score finding then (finding, current)
          else (current, finding)
        assocSetD deduped key (mergeFindings ps.1 ps.2))
    ([] : List (String × PyDict))).map Prod.snd

/-- Stable insertion of `x` into a list already sorted by descending key:
`x` goes before the first element whose key does not exceed `x`'s, so among
equal keys earlier input elements stay first. -/
def insertDesc (k : PyDict → Int) (x : PyDict) : List PyDict → List PyDict
  | [] => [x]
  | y :: ys => if k y ≤ k x then x :: y :: ys else y :: insertDesc k x ys

/-- Stable descending sort by an integer key: the behaviour of Python
`sorted(xs, key=k, reverse=True)` (descending, input order preserved among
equal keys). -/
def pySortDesc (k : PyDict → Int) : List PyDict → List PyDict
  | [] => []
  | x :: xs => insertDesc k x (pySortDesc k xs)

/-- `heuristic_rank`: `sorted(detectors, key=_rank_score, reverse=True)`
truncated to `max_issues`. -/
def heuristic_rank (detectors : List PyDict) (max_issues : Nat) : List PyDict :=
  (pySortDesc _rank_score detectors).take max_issues

/-! ## Filter (`triage.py` lines 121–248)

`_load_filters` performs file I/O; its result (the filter config dict) and
the two `OPENAUDIT_*` environment overrides are explicit parameters here. -/

/-- The relevant process environment (`os.getenv` reads), `None` for unset
variables. -/
structure OsEnv where
  openai_api_key : Option String
  ollama_model : Option String
  min_severity_override : Option String
  min_confidence_override : Option String

/-- Truthiness of an environment read (`if not api_key`): set and
nonempty. -/
def envTruthy : Option String → Bool
  | some s => !s.isEmpty
  | Option.none => false

/-- `_canonical_identifier`: lowercase alphanumeric runs joined by single
hyphens. -/
def _canonical_identifier (text : String) : String :=
  let lowered := (strStrip text).data.map fun ch =>
    if chIsAlnum ch then chLower ch else '-'
  let parts := (lowered.splitOnP (· = '-')).filter fun p => !p.isEmpty
  ⟨(parts.intersperse ['-']).flatten⟩

/-- `_parse_patterns`: a comma-separated string or a list of values becomes
a list of stripped nonempty pattern strings. -/
def _parse_patterns (value : PyVal) : List String :=
  match value with
  | .none => []
  | .str s => ((splitOnComma s).map strStrip).filter fun t => !t.isEmpty
  | .list xs => ((xs.map fun item => strStrip (pyStrOf item)).filter fun t => !t.isEmpty)
  | _ => []

/-- `_severity_threshold`: environment override first, else the config
value; numeric values are truncated to int, strings go through the severity
canon. -/
def _severity_threshold (env : OsEnv) (config : PyDict) : Option Int :=
  let raw : PyVal := match env.min_severity_override with
    | some s => .str s
    | Option.none => pyGet config "min_severity"
  match raw with
  | .none => Option.none
  | .int n => some n
  | .float q => some (pyTrunc q)
  | .bool b => some (if b then 1 else 0)
  | .str s =>
      match _normalize_severity (.str s) with
      | some c => List.lookup c SEVERITY_SCORES
      | Option.none => Option.none
  | _ => Option.none

/-- Python `float(raw)` with `TypeError`/`ValueError` turned into `None`. -/
def pyFloatCoerce (v : PyVal) : Option ℚ :=
  match v with
  | .int n => some (n : ℚ)
  | .float q => some q
  | .bool b => some (if b then 1 else 0)
  | .str s => pyParseFloat (strStrip s)
  | _ => Option.none

/-- `_confidence_threshold`: environment override first, else the config
value, coerced with `float()`; unparseable values disable the check. -/
def _confidence_threshold (env : OsEnv) (config : PyDict) : Option ℚ :=
  let raw : PyVal := match env.min_confidence_override with
    | some s => .str s
    | Option.none => pyGet config "min_confidence"
  match raw with
  | .none => Option.none
  | v => pyFloatCoerce v

/-- `_finding_identifiers`: the truthy identifier strings from
`{title, check, name}` on the finding and
`{check, detector_name, id, name, title}` on its raw record. -/
def _finding_identifiers (finding : PyDict) : List String :=
  let raw := dictOf (pyOr (pyGet finding "raw") (.dict []))
  let ids := ["title", "check", "name"].foldl (fun acc key =>
    let value := pyGet finding key
    if pyTruthy value then acc ++ [pyStrOf value] else acc) ([] : List String)
  ["check", "detector_name", "id", "name", "title"].foldl (fun acc key =>
    let value := pyGet raw key
    if pyTruthy value then acc ++ [pyStrOf value] else acc) ids

/-- `_matches_patterns`: some canonicalized nonempty pattern occurs as a
substring of some canonicalized identifier. -/
def _matches_patterns (identifiers patterns : List String) : Bool :=
  if patterns.isEmpty then false
  else
    let canonical_identifiers := identifiers.map _canonical_identifier
    patterns.any fun pattern =>
      let canonical_pattern := _canonical_identifier pattern
      if canonical_pattern.isEmpty then false
      else canonical_identifiers.any fun identifier =>
        listContainsSeg identifier.data canonical_pattern.data

/-- The confidence value the threshold check compares (`triage.py` lines
241–243): normalized confidence, absent treated as `0.5`. -/
def _filter_confidence (finding : PyDict) : ℚ :=
  match _normalize_confidence (pyGet finding "confidence") with
  | Option.none => 1 / 2
  | some q => q

/-- `filter_findings` with the loaded config and environment explicit:
per-tool allow (falling back to default allow) and default+per-tool deny
pattern rules, then severity and confidence thresholds; order-preserving. -/
def filter_findings (env : OsEnv) (config : PyDict)
    (findings : List PyDict) : List PyDict :=
  let tools_config := dictOf (pyOr (pyGet config "tools") (.dict []))
  let default_config := dictOf (pyOr (pyGet config "default") (.dict []))
  let default_allow := _parse_patterns (pyGet default_config "allow")
  let default_deny := _parse_patterns (pyGet default_config "deny")
  let min_severity_score := _severity_threshold env config
  let min_confidence := _confidence_threshold env config
  findings.filter fun finding =>
    let source := strLower (pyStrOf (pyOr (pyGet finding "source") (.str "default")))
    let tool_config := dictOf (pyOr (pyGet tools_config source) (.dict []))
    let allow0 := _parse_patterns (pyGet tool_config "allow")
    let allow := if allow0.isEmpty then default_allow else allow0
    let deny := default_deny ++ _parse_patterns (pyGet tool_config "deny")
    let identifiers := _finding_identifiers finding
    if !deny.isEmpty && _matches_patterns identifiers deny then false
    else if !allow.isEmpty && !_matches_patterns identifiers allow then false
    else
      (match min_severity_score with
       | some t =>
           let severity := (_normalize_severity (pyGet finding "severity")).getD "LOW"
           decide (t ≤ (List.lookup severity SEVERITY_SCORES).getD 0)
       | Option.none => true) &&
      (match min_confidence with
       | some t => decide (t ≤ _filter_confidence finding)
       | Option.none => true)

/-- `DEFAULT_FILTERS`: the built-in config used when no filter file is
present. -/
def DEFAULT_FILTERS : PyDict :=
  [("min_severity", .str "MEDIUM"),
   ("min_confidence", .float (6 / 10)),
   ("default", .dict [("allow", .list []), ("deny", .list [])]),
   ("tools", .dict
     [("slither", .dict
       [("allow", .list ([ "reentrancy", "arbitrary-send", "tx-origin",
          "delegatecall", "weak-prng", "incorrect-equality", "oracle",
          "price-manipulation", "access-control", "uninitialized",
          "selfdestruct", "suicidal", "proxy", "upgrade", "signature",
          "replay", "dos", "denial-of-service", "front-run", "frontrun",
          "mev"].map PyVal.str)),
        ("deny", .list ([ "solc-version", "naming-convention",
          "constable-states", "state-variable-could-be-constant",
          "dead-code", "unused-return", "pragma", "immutable-states",
          "redundant-statements"].map PyVal.str))]),
      ("aderyn", .dict
       [("allow", .list ([ "tx-origin", "reentrancy", "access-control",
          "authorization", "arbitrary-send", "delegatecall", "selfdestruct",
          "oracle", "price-manipulation", "uninitialized", "proxy",
          "upgrade", "signature", "replay", "dos", "denial-of-service",
          "front-run", "frontrun", "mev"].map PyVal.str)),
        ("deny", .list ([ "empty-require-revert", "modifier-used-only-once",
          "state-variable-could-be-constant",
          "public-function-not-used-internally", "unused-function",
          "unused-variable"].map PyVal.str))])])]

/-! ## Snippet attachment (`triage.py` lines 43, 121–125, 261–304)

File resolution and reading (`_resolve_file_path`, `Path.read_text`, the
per-call cache) are modelled by one map `fs` from file paths to the line
lists of resolvable files; unresolvable or unreadable paths map to `none`.
The cache only memoizes `fs` and does not change its value. -/

/-- `SNIPPET_CONTEXT_LINES`. -/
def SNIPPET_CONTEXT_LINES : Int := 3

/-- Left-pad a string to width 4 (the `f"{idx:>4}"` format). -/
def padLeft4 (s : String) : String :=
  if s.length < 4 then ⟨List.replicate (4 - s.length) ' '⟩ ++ s else s

/-- Join strings with a separator. -/
def joinWith (sep : String) : List String → String
  | [] => ""
  | [s] => s
  | s :: rest => s ++ sep ++ joinWith sep rest

/-- `_format_snippet`: number each line (right-aligned to width 4),
right-strip it, and join with newlines. -/
def _format_snippet (lines : List String) (start_line : Int) : String :=
  joinWith "\n" (lines.enum.map fun p =>
    padLeft4 (intRepr (start_line + p.1)) ++ " | " ++ strRStrip p.2)

/-- `_read_snippet`: the `start_line`/`end_line`/`snippet` info dict for a
resolvable file and in-range line, `none` otherwise. -/
def _read_snippet (fs : String → Option (List String)) (file_path : String)
    (line : Int) : Option PyDict :=
  match fs file_path with
  | Option.none => Option.none
  | some lines =>
      if line < 1 || (lines.length : Int) < line then Option.none
      else
        let start_line := max 1 (line - SNIPPET_CONTEXT_LINES)
        let end_line := min (lines.length : Int) (line + SNIPPET_CONTEXT_LINES)
        let snippet_lines :=
          ((lines.drop (start_line - 1).toNat).take (end_line - start_line + 1).toNat)
        some [("start_line", .int start_line), ("end_line", .int end_line),
              ("snippet", .str (_format_snippet snippet_lines start_line))]

/-- Exception classes that can cross the classifier try-block boundary. -/
inductive PyError where
  | requestException
  | valueError
  | keyError
  | typeError
  | indexError
  | runtimeError
deriving DecidableEq, Repr

/-- The integer value of a Python `int` instance (`bool` included). -/
def intOfPyInt : PyVal → Int
  | .int n => n
  | .bool b => if b then 1 else 0
  | _ => 0

/-- `location.update(snippet_info)`: merge the info keys into the location
dict in order. -/
def updateLoc (loc : PyDict) (info : PyDict) : PyDict :=
  info.foldl (fun d kv => setKey d kv.1 kv.2) loc

/-- One location's treatment inside `_attach_snippets`: skipped unless it is
a dict with truthy `file` and int `line`; a non-string truthy `file` makes
`Path(file_path)` raise `TypeError` (uncaught); otherwise the snippet info,
when readable, is merged in. -/
def attachLoc (fs : String → Option (List String)) (l : PyVal) :
    Except PyError PyVal :=
  match l with
  | .dict loc =>
      let file_path := pyGet loc "file"
      let line := pyGet loc "line"
      if !pyTruthy file_path || !isPyInt line then .ok (.dict loc)
      else
        match file_path with
        | .str s =>
            match _read_snippet fs s (intOfPyInt line) with
            | some info => .ok (.dict (updateLoc loc info))
            | Option.none => .ok (.dict loc)
        | _ => .error .typeError
  | v => .ok v

/-- `_attach_snippets` on one finding: update each location of a list-valued
`locations` field in place. -/
def attachFinding (fs : String → Option (List String)) (f : PyDict) :
    Except PyError PyDict :=
  match pyGet f "locations" with
  | .list ls => do
      let ls' ← ls.mapM (attachLoc fs)
      pure (setKey f "locations" (.list ls'))
  | _ => .ok f

/-- `_attach_snippets`: snippet enrichment over the filtered findings. -/
def _attach_snippets (fs : String → Option (List String))
    (findings : List PyDict) : Except PyError (List PyDict) :=
  findings.mapM (attachFinding fs)

/-! ## Classifier call (`triage.py` lines 600–637) and orchestrator
(lines 640–699)

The HTTP exchange is abstracted as an `HttpOutcome` (network failure, or a
status code with a response body); JSON parsing (`response.json()` and
`json.loads`) is one abstract parser `jsonLoads` quantified over in the
theorems. -/

/-- The observable behaviour of the `requests.post` call. -/
inductive HttpOutcome where
  | netError
  | resp (status : Nat) (body : String)

/-- Python `v[k]` for a string key: dict lookup (`KeyError` when missing),
`TypeError` on non-dicts. -/
def pySubscriptStr (v : PyVal) (k : String) : Except PyError PyVal :=
  match v with
  | .dict d =>
      match List.lookup k d with
      | some x => .ok x
      | Option.none => .error .keyError
  | _ => .error .typeError

/-- Python `v[i]` for index 0: list/str indexing (`IndexError` out of
range), `KeyError` on dicts (string-keyed here), `TypeError` otherwise. -/
def pySubscriptIdx (v : PyVal) (i : Nat) : Except PyError PyVal :=
  match v with
  | .list xs =>
      match xs.get? i with
      | some x => .ok x
      | Option.none => .error .indexError
  | .str s =>
      match s.data.get? i with
      | some c => .ok (.str ⟨[c]⟩)
      | Option.none => .error .indexError
  | .dict _ => .error .keyError
  | _ => .error .typeError

/-- `call_llm`: POST to the chat-completions endpoint, raise for HTTP error
statuses (`RequestException`), parse the body (`ValueError` on invalid
JSON), extract `payload["choices"][0]["message"]["content"]` (KeyError /
IndexError / TypeError on structurally unexpected payloads), and parse the
content string, re-raising a parse failure as `ValueError`. -/
def call_llm (jsonLoads : String → Except Unit PyVal) :
    HttpOutcome → Except PyError PyVal
  | .netError => .error .requestException
  | .resp status body =>
      if 400 ≤ status then .error .requestException
      else
        match jsonLoads body with
        | .error _ => .error .valueError
        | .ok payload => do
            let choices ← pySubscriptStr payload "choices"
            let first ← pySubscriptIdx choices 0
            let message ← pySubscriptStr first "message"
            let content ← pySubscriptStr message "content"
            match content with
            | .str s =>
                match jsonLoads s with
                | .ok v => .ok v
                | .error _ => .error .valueError
            | _ => .error .typeError

/-- Python `iter(v)` as used by the list comprehension over the classifier
result: lists yield elements, strings characters, dicts their keys;
everything else raises `TypeError`. -/
def pyIterate (v : PyVal) : Except PyError (List PyVal) :=
  match v with
  | .list xs => .ok xs
  | .str s => .ok (s.data.map fun c => .str ⟨[c]⟩)
  | .dict d => .ok (d.map fun kv => PyVal.str kv.1)
  | _ => .error .typeError

/-- Python `dict(v)` on one classifier-result element. Dicts convert as
themselves; strings raise `ValueError` (except `""`, which gives `{}`);
lists of key/value pairs convert entry-wise (a 2-element list with a
non-string key — which this code could never look up again — and
unhashable keys are modelled uniformly as `TypeError`); scalars raise
`TypeError`. -/
def pyToDict (v : PyVal) : Except PyError PyDict :=
  match v with
  | .dict d => .ok d
  | .str s => if s.isEmpty then .ok [] else .error .valueError
  | .list xs =>
      xs.foldlM (fun d x =>
        match x with
        | .list [.str k, v] => .ok (setKey d k v)
        | .str s2 =>
            match s2.data with
            | [c1, c2] => .ok (setKey d ⟨[c1]⟩ (.str ⟨[c2]⟩))
            | _ => .error .valueError
        | .list l => if l.length = 2 then .error .typeError else .error .valueError
        | .dict es =>
            match es with
            | [(k1, _), (k2, _)] => .ok (setKey d k1 (.str k2))
            | _ => .error .valueError
        | _ => .error .typeError) ([] : PyDict)
  | _ => .error .typeError

/-- The list comprehension `[_normalize_existing_finding(f) for f in r]`
applied to a classifier result value. -/
def normalizeClassifierOutput (v : PyVal) : Except PyError (List PyDict) := do
  let items ← pyIterate v
  items.mapM fun item => do
    let d ← pyToDict item
    pure (_normalize_existing_finding d)

/-- The evidence-filter step of `triage_findings` (lines 651–652): drop
findings without evidence unless that would drop everything. -/
def evidence_step (deduped : List PyDict) : List PyDict :=
  let evidence_filtered := deduped.filter _has_evidence
  if evidence_filtered.isEmpty then deduped else evidence_filtered

/-- The pure pipeline prefix of `triage_findings`: normalize every detector,
deduplicate, evidence-filter, then rule/threshold-filter. -/
def triage_filtered (env : OsEnv) (cfg : PyDict)
    (detectors : List PyDict) : List PyDict :=
  let normalized := detectors.map _normalize_existing_finding
  let deduped := _dedupe_findings normalized
  filter_findings env cfg (evidence_step deduped)

/-- `triage_findings`: the orchestrator. `cfg` is the loaded filter config,
`fs` the readable files, `jsonLoads` the JSON parser, `llm` the HTTP
behaviour of the OpenAI-style call, `ollamaResult` the outcome of
`call_ollama` (which may itself raise). The `except (RequestException,
ValueError)` handler around the classifier path falls back to
`heuristic_rank` over the (snippet-attached) filtered findings; any other
exception propagates. -/
def triage_findings (env : OsEnv) (cfg : PyDict)
    (fs : String → Option (List String))
    (jsonLoads : String → Except Unit PyVal) (llm : HttpOutcome)
    (ollamaResult : Except PyError PyVal) (detectors : List PyDict)
    (max_issues : Nat) (use_llm : Bool) : Except PyError (List PyDict) :=
  if detectors.isEmpty then .ok []
  else
    let filtered := triage_filtered env cfg detectors
    if filtered.isEmpty then .ok []
    else if !use_llm then .ok (heuristic_rank filtered max_issues)
    else if !envTruthy env.openai_api_key && !envTruthy env.ollama_model then
      .ok (heuristic_rank filtered max_issues)
    else
      match _attach_snippets fs filtered with
      | .error e => .error e
      | .ok attached =>
          let result : Except PyError (List PyDict) :=
            if envTruthy env.openai_api_key then
              match call_llm jsonLoads llm with
              | .error e => .error e
              | .ok v => normalizeClassifierOutput v
            else
              match ollamaResult with
              | .error e => .error e
              | .ok v => normalizeClassifierOutput v
          match result with
          | .ok out => .ok out
          | .error e =>
              if e = .requestException || e = .valueError then
                .ok (heuristic_rank attached max_issues)
              else .error e

/-! ## Basic dict lemmas -/

/-- Unfolding `List.lookup` one entry at a time (string keys). -/
theorem lookup_cons_str {β : Type} (k a : String) (b : β) (l : List (String × β)) :
    List.lookup k ((a, b) :: l) = if k = a then some b else List.lookup k l := by
  by_cases h : k = a
  · subst h; simp [List.lookup]
  · have hb : (k == a) = false := beq_eq_false_iff_ne.mpr h
    simp [List.lookup, hb, h]

/-- Reading through a write: `pyGet` after `setKey`. -/
theorem pyGet_setKey (d : PyDict) (k : String) (v : PyVal) (k' : String) :
    pyGet (setKey d k v) k' = if k' = k then v else pyGet d k' := by
  induction d with
  | nil =>
      by_cases h : k' = k
      · simp [setKey, pyGet, lookup_cons_str, h, List.lookup]
      · simp [setKey, pyGet, lookup_cons_str, h, List.lookup,
          beq_eq_false_iff_ne.mpr h]
  | cons hd tl ih =>
      obtain ⟨k₀, v₀⟩ := hd
      by_cases h0 : k₀ = k
      · subst h0
        simp only [setKey, if_pos rfl]
        by_cases h : k' = k₀ <;> simp [pyGet, lookup_cons_str, h]
      · simp only [setKey, if_neg h0]
        by_cases h : k' = k₀
        · subst h
          have hkk : ¬k' = k := fun hh => h0 hh
          simp [pyGet, lookup_cons_str, hkk]
        · simp only [pyGet, lookup_cons_str, if_neg h] at ih ⊢
          exact ih

/-- Writing back the value already stored leaves the dict unchanged. -/
theorem setKey_eq_self (d : PyDict) (k : String) (v : PyVal)
    (h : List.lookup k d = some v) : setKey d k v = d := by
  induction d with
  | nil => simp [List.lookup] at h
  | cons hd tl ih =>
      obtain ⟨k₀, v₀⟩ := hd
      rw [lookup_cons_str] at h
      by_cases hk : k = k₀
      · subst hk
        simp only [if_pos rfl] at h
        cases h
        simp [setKey]
      · simp only [if_neg hk] at h
        have hk' : ¬k₀ = k := fun hh => hk hh.symm
        simp [setKey, hk', ih h]

/-- A value looked up in an association list occurs among its values. -/
theorem lookup_mem_values {β : Type} (k : String) (l : List (String × β)) (v : β)
    (h : List.lookup k l = some v) : v ∈ l.map Prod.snd := by
  induction l with
  | nil => simp [List.lookup] at h
  | cons hd tl ih =>
      obtain ⟨k₀, v₀⟩ := hd
      rw [lookup_cons_str] at h
      by_cases hk : k = k₀
      · simp only [if_pos hk] at h
        cases h
        simp
      · simp only [if_neg hk] at h
        simpa using Or.inr (ih h)

/-! ## Severity/Confidence canon lemmas -/

/-- `confScale` always lands in `[0, 1]`. -/
theorem confScale_bounds (q : ℚ) : 0 ≤ confScale q ∧ confScale q ≤ 1 := by
  unfold confScale
  constructor
  · exact le_max_left 0 _
  · exact max_le (by norm_num) (min_le_left 1 _)

/-- Every confidence alias constant lies in `[0, 1]`. -/
theorem conf_alias_bounds (s : String) (q : ℚ)
    (h : List.lookup s CONFIDENCE_ALIASES = some q) : 0 ≤ q ∧ q ≤ 1 := by
  have hm := lookup_mem_values s CONFIDENCE_ALIASES q h
  simp [CONFIDENCE_ALIASES] at hm
  rcases hm with h1 | h1 | h1 | h1 <;> subst h1 <;> constructor <;> norm_num

/-- Whatever `_normalize_confidence` returns lies in `[0, 1]`. -/
theorem normalize_confidence_range (v : PyVal) (q : ℚ)
    (h : _normalize_confidence v = some q) : 0 ≤ q ∧ q ≤ 1 := by
  unfold _normalize_confidence at h
  cases v with
  | int n => cases h; exact confScale_bounds _
  | float x => cases h; exact confScale_bounds _
  | bool b => cases h; exact confScale_bounds _
  | str s =>
      simp only at h
      cases ha : List.lookup (strUpper (strStrip s)) CONFIDENCE_ALIASES with
      | some a => rw [ha] at h; cases h; exact conf_alias_bounds _ _ ha
      | none =>
          rw [ha] at h
          cases hp : pyParseFloat (strUpper (strStrip s)) with
          | some p => rw [hp] at h; cases h; exact confScale_bounds _
          | none => rw [hp] at h; cases h
  | none => cases h
  | list xs => cases h
  | dict d => cases h

/-- C8: confidence canonicalization. For numeric inputs `v` (ints coerce to
the same rational) the result is `v/100` when `1 < v ≤ 100`, `v` itself when
`0 ≤ v ≤ 1`, and clamps to `1` when `v > 100`; and every present result of
`_normalize_confidence`, on any input whatsoever, lies in `[0, 1]`. -/
theorem confidence_canonicalization :
    (∀ v : ℚ, 1 < v → v ≤ 100 →
      _normalize_confidence (.float v) = some (v / 100)) ∧
    (∀ v : ℚ, 0 ≤ v → v ≤ 1 → _normalize_confidence (.float v) = some v) ∧
    (∀ v : ℚ, 100 < v → _normalize_confidence (.float v) = some 1) ∧
    (∀ n : ℤ, _normalize_confidence (.int n) =
      _normalize_confidence (.float (n : ℚ))) ∧
    (∀ w : PyVal, ∀ q : ℚ, _normalize_confidence w = some q →
      0 ≤ q ∧ q ≤ 1) := by
  refine ⟨?_, ?_, ?_, ?_, normalize_confidence_range⟩
  · intro v h1 h100
    have hcond : (1 < v ∧ v ≤ 100) := ⟨h1, h100⟩
    have h0 : (0 : ℚ) ≤ v / 100 := by positivity
    have hle : v / 100 ≤ 1 := by
      rw [div_le_one (by norm_num)]; exact h100
    simp [_normalize_confidence, confScale, hcond, min_eq_right hle,
      max_eq_right h0]
  · intro v h0 h1
    have hcond : ¬(1 < v ∧ v ≤ 100) := fun hc => absurd h1 (not_le.mpr hc.1)
    simp [_normalize_confidence, confScale, hcond, min_eq_right h1,
      max_eq_right h0]
  · intro v h100
    have hcond : ¬(1 < v ∧ v ≤ 100) := fun hc => absurd hc.2 (not_le.mpr h100)
    have h1v : (1 : ℚ) ≤ v := le_trans (by norm_num) (le_of_lt h100)
    simp [_normalize_confidence, confScale, hcond, min_eq_left h1v]
  · intro n; rfl

/-- Witness for C8 at `v = 50`, `v = 1/2`, `v = 250`. -/
theorem confidence_canonicalization_witness :
    ((1 : ℚ) < 50 ∧ (50 : ℚ) ≤ 100 ∧
      _normalize_confidence (.float 50) = some (50 / 100)) ∧
    ((0 : ℚ) ≤ 1 / 2 ∧ (1 / 2 : ℚ) ≤ 1 ∧
      _normalize_confidence (.float (1 / 2)) = some (1 / 2)) ∧
    ((100 : ℚ) < 250 ∧ _normalize_confidence (.float 250) = some 1) :=
  ⟨⟨by norm_num, by norm_num,
      confidence_canonicalization.1 50 (by norm_num) (by norm_num)⟩,
   ⟨by norm_num, by norm_num,
      confidence_canonicalization.2.1 (1 / 2) (by norm_num) (by norm_num)⟩,
   ⟨by norm_num, confidence_canonicalization.2.2.1 250 (by norm_num)⟩⟩

/-- The five canonical severities are fixed points of the severity canon. -/
theorem sev_canon_fix :
    ∀ c ∈ ["CRITICAL", "HIGH", "MEDIUM", "LOW", "INFORMATIONAL"],
      _normalize_severity (.str c) = some c := by decide

/-- `_normalize_severity` only ever returns canonical severities. -/
theorem ns_canon (v : PyVal) (c : String) (h : _normalize_severity v = some c) :
    c ∈ ["CRITICAL", "HIGH", "MEDIUM", "LOW", "INFORMATIONAL"] := by
  unfold _normalize_severity at h
  cases v <;> try cases h
  case str s =>
    have hm := lookup_mem_values _ _ _ h
    fin_cases hm <;> decide

/-- Re-normalizing a canonicalized severity is the identity. -/
theorem ns_fix (v : PyVal) (c : String) (h : _normalize_severity v = some c) :
    _normalize_severity (.str c) = some c :=
  sev_canon_fix c (ns_canon v c h)

/-- The severity component of `_rank_score` as a function of the raw
severity value. -/
def sev_score_of (v : PyVal) : Int :=
  (List.lookup ((_normalize_severity v).getD "LOW") SEVERITY_SCORES).getD 1

/-- `_rank_score` splits into severity and confidence components. -/
theorem rank_score_eq (d : PyDict) :
    _rank_score d =
      sev_score_of (pyGet d "severity") * 3 +
        _confidence_score (pyGet d "confidence") := rfl

/-- C2 (amended): for two findings agreeing on everything but severity and
confidence, if the first has the strictly higher severity rank then its rank
score is at least the other's, and it is placed strictly before the other by
`heuristic_rank` (in either input order) whenever the lower-severity
finding's confidence bucket does not make up the full `3 * severity gap`
(the only way the scores can tie; `severityRank * 3` does not strictly
dominate the `0..3` bucket range). In a tie the stable sort keeps the input
order instead. -/
theorem severity_dominates_ranking (d : PyDict) (s1 s2 c1 c2 : PyVal)
    (hsev : sev_score_of s2 < sev_score_of s1)
    (hbucket : _confidence_score c2 <
      _confidence_score c1 + 3 * (sev_score_of s1 - sev_score_of s2)) :
    heuristic_rank [setKey (setKey d "severity" s1) "confidence" c1,
        setKey (setKey d "severity" s2) "confidence" c2] 2 =
      [setKey (setKey d "severity" s1) "confidence" c1,
        setKey (setKey d "severity" s2) "confidence" c2] ∧
    heuristic_rank [setKey (setKey d "severity" s2) "confidence" c2,
        setKey (setKey d "severity" s1) "confidence" c1] 2 =
      [setKey (setKey d "severity" s1) "confidence" c1,
        setKey (setKey d "severity" s2) "confidence" c2] := by
  set a := setKey (setKey d "severity" s1) "confidence" c1 with ha
  set b := setKey (setKey d "severity" s2) "confidence" c2 with hb
  have hgsa : pyGet a "severity" = s1 := by
    rw [ha, pyGet_setKey, if_neg (by decide), pyGet_setKey, if_pos rfl]
  have hgca : pyGet a "confidence" = c1 := by
    rw [ha, pyGet_setKey, if_pos rfl]
  have hgsb : pyGet b "severity" = s2 := by
    rw [hb, pyGet_setKey, if_neg (by decide), pyGet_setKey, if_pos rfl]
  have hgcb : pyGet b "confidence" = c2 := by
    rw [hb, pyGet_setKey, if_pos rfl]
  have hra : _rank_score a = sev_score_of s1 * 3 + _confidence_score c1 := by
    rw [rank_score_eq, hgsa, hgca]
  have hrb : _rank_score b = sev_score_of s2 * 3 + _confidence_score c2 := by
    rw [rank_score_eq, hgsb, hgcb]
  have hlt : _rank_score b < _rank_score a := by
    rw [hra, hrb]; linarith
  refine ⟨?_, ?_⟩
  · simp [heuristic_rank, pySortDesc, insertDesc, le_of_lt hlt]
  · simp [heuristic_rank, pySortDesc, insertDesc, not_le.mpr hlt]

/-- Witness for C2 at `HIGH` vs `LOW` with absent confidences. -/
theorem severity_dominates_ranking_witness :
    sev_score_of (.str "LOW") < sev_score_of (.str "HIGH") ∧
    _confidence_score PyVal.none <
      _confidence_score PyVal.none +
        3 * (sev_score_of (.str "HIGH") - sev_score_of (.str "LOW")) ∧
    heuristic_rank [setKey (setKey [] "severity" (.str "LOW")) "confidence" .none,
        setKey (setKey [] "severity" (.str "HIGH")) "confidence" .none] 2 =
      [setKey (setKey [] "severity" (.str "HIGH")) "confidence" .none,
        setKey (setKey [] "severity" (.str "LOW")) "confidence" .none] :=
  ⟨by decide, by decide,
    (severity_dominates_ranking [] (.str "HIGH") (.str "LOW") .none .none
      (by decide) (by decide)).2⟩

/-- Counterexample to C2 as stated: a `MEDIUM` finding with confidence `1.0`
(bucket 3) ties the score of a `HIGH` finding with confidence `0.0`
(bucket 0), and the stable sort then leaves the lower-severity finding
strictly first. -/
theorem severity_dominates_ranking_cex :
    sev_score_of (.str "MEDIUM") < sev_score_of (.str "HIGH") ∧
    heuristic_rank [[("severity", .str "MEDIUM"), ("confidence", .float 1)],
        [("severity", .str "HIGH"), ("confidence", .float 0)]] 2 =
      [[("severity", .str "MEDIUM"), ("confidence", .float 1)],
        [("severity", .str "HIGH"), ("confidence", .float 0)]] := by
  constructor
  · decide
  · have hc1 : _confidence_score (.float 1) = 3 := by
      have h1 : _normalize_confidence (.float 1) = some 1 :=
        confidence_canonicalization.2.1 1 (by norm_num) (by norm_num)
      rw [_confidence_score, h1]
      norm_num [pyRound]
    have hc0 : _confidence_score (.float 0) = 0 := by
      have h0 : _normalize_confidence (.float 0) = some 0 :=
        confidence_canonicalization.2.1 0 (by norm_num) (by norm_num)
      rw [_confidence_score, h0]
      norm_num [pyRound]
    have hmed : _rank_score [("severity", .str "MEDIUM"), ("confidence", .float 1)] = 9 := by
      rw [rank_score_eq]
      have : sev_score_of (pyGet [("severity", PyVal.str "MEDIUM"),
          ("confidence", PyVal.float 1)] "severity") = 2 := by decide
      rw [this]
      have : pyGet [("severity", PyVal.str "MEDIUM"), ("confidence", PyVal.float 1)]
          "confidence" = .float 1 := rfl
      rw [this, hc1]; norm_num
    have hhi : _rank_score [("severity", .str "HIGH"), ("confidence", .float 0)] = 9 := by
      rw [rank_score_eq]
      have : sev_score_of (pyGet [("severity", PyVal.str "HIGH"),
          ("confidence", PyVal.float 0)] "severity") = 3 := by decide
      rw [this]
      have : pyGet [("severity", PyVal.str "HIGH"), ("confidence", PyVal.float 0)]
          "confidence" = .float 0 := rfl
      rw [this, hc0]; norm_num
    simp [heuristic_rank, pySortDesc, insertDesc, hmed, hhi]

/-! ## C6: the evidence-filter step -/

/-- C6 (amended): the evidence filter never empties the set — when no
finding has evidence (`_has_evidence` false: no locations, no raw
instances, no raw source-mapping lines) it returns all of them unchanged;
and findings are dropped only when at least one finding with evidence
remains, in which case exactly the findings with evidence survive. -/
theorem evidence_filter_no_empty :
    (∀ l : List PyDict, (∀ f ∈ l, _has_evidence f = false) →
      evidence_step l = l) ∧
    (∀ l : List PyDict, ∀ g ∈ l, _has_evidence g = true →
      evidence_step l = l.filter _has_evidence) := by
  constructor
  · intro l h
    have : l.filter _has_evidence = [] :=
      List.filter_eq_nil_iff.mpr fun a ha => by simp [h a ha]
    simp [evidence_step, this]
  · intro l g hg hgev
    have : g ∈ l.filter _has_evidence := List.mem_filter.mpr ⟨hg, hgev⟩
    have hne : ¬(l.filter _has_evidence).isEmpty := by
      intro hemp
      rw [List.isEmpty_iff.mp hemp] at this
      exact absurd this (List.not_mem_nil g)
    simp [evidence_step, hne]

/-- Witness for C6: an evidence-free finding list passes through unchanged;
a list with one evidence-bearing finding is filtered to it. -/
theorem evidence_filter_no_empty_witness :
    (_has_evidence [("title", PyVal.str "a")] = false ∧
      evidence_step [[("title", PyVal.str "a")]] = [[("title", PyVal.str "a")]]) ∧
    (_has_evidence [("locations", PyVal.list [.dict [("file", .str "x.sol")]])] = true ∧
      evidence_step [[("title", PyVal.str "a")],
          [("locations", PyVal.list [.dict [("file", .str "x.sol")]])]] =
        [[("locations", PyVal.list [.dict [("file", .str "x.sol")]])]]) := by
  refine ⟨⟨rfl, ?_⟩, ⟨rfl, ?_⟩⟩
  · exact (evidence_filter_no_empty.1 [[("title", PyVal.str "a")]]
      (by intro f hf; simp at hf; subst hf; rfl))
  · exact (evidence_filter_no_empty.2
      [[("title", PyVal.str "a")],
       [("locations", PyVal.list [.dict [("file", .str "x.sol")]])]]
      [("locations", PyVal.list [.dict [("file", .str "x.sol")]])]
      (by simp) rfl)

/-- Counterexample to C6 as stated: two findings both with zero locations,
one of which still counts as evidence-bearing through a nonempty (if
useless) `raw.instances` list; the evidence step drops the other finding
instead of returning both. -/
theorem evidence_filter_cex :
    let f1 : PyDict := [("locations", PyVal.list []),
      ("raw", PyVal.dict [("instances", PyVal.list [PyVal.dict []])])]
    let f2 : PyDict := [("locations", PyVal.list [])]
    pyGet f1 "locations" = .list [] ∧ pyGet f2 "locations" = .list [] ∧
    evidence_step [f1, f2] = [f1] ∧ evidence_step [f1, f2] ≠ [f1, f2] := by
  intro f1 f2
  refine ⟨rfl, rfl, rfl, ?_⟩
  intro h
  have h0 : evidence_step [f1, f2] = [f1] := rfl
  rw [h0] at h
  have := congrArg List.length h
  simp at this

/-! ## Dedup merge lemmas for C5 and C9 -/

/-- A two-element collision reduces `_dedupe_findings` to one merged
finding, primary chosen by strict score comparison. -/
theorem dedupe_pair (a b : PyDict) (hk : key_for a = key_for b) :
    _dedupe_findings [a, b] =
      [if _rank_score a < _rank_score b then mergeFindings b a
       else mergeFindings a b] := by
  have h2 : List.lookup (key_for b) [(key_for a, a)] = some a := by
    rw [← hk, lookup_cons_str, if_pos rfl]
  unfold _dedupe_findings
  simp only [List.foldl, List.lookup, h2]
  by_cases hr : _rank_score a < _rank_score b <;>
    simp [hr, assocSetD, ← hk]

/-- `pyGet` through one conditional `setKey` on a different key. -/
theorem pyGet_condSet_ne (m : PyDict) (f k : String) (v : PyVal) (c : Bool)
    (h : ¬k = f) :
    pyGet (if c then setKey m f v else m) k = pyGet m k := by
  by_cases hc : c <;> simp [hc, pyGet_setKey, h]

/-- `gapFill` never touches keys outside the four gap fields. -/
theorem pyGet_gapFill_ne (s m : PyDict) (k : String)
    (h1 : ¬k = "description") (h2 : ¬k = "impact")
    (h3 : ¬k = "remediation") (h4 : ¬k = "repro") :
    pyGet (gapFill s m) k = pyGet m k := by
  unfold gapFill
  simp only [List.foldl]
  rw [pyGet_condSet_ne _ _ _ _ _ h4, pyGet_condSet_ne _ _ _ _ _ h3,
    pyGet_condSet_ne _ _ _ _ _ h2, pyGet_condSet_ne _ _ _ _ _ h1]

/-- The merged finding's `locations` is the concatenation of the primary's
then the secondary's location lists. -/
theorem mergeFindings_locations (p s : PyDict) :
    pyGet (mergeFindings p s) "locations" =
      .list (listOf (pyOr (pyGet p "locations") (.list [])) ++
        listOf (pyOr (pyGet s "locations") (.list []))) := by
  unfold mergeFindings
  rw [pyGet_gapFill_ne _ _ _ (by decide) (by decide) (by decide) (by decide),
    pyGet_setKey, if_neg (by decide), pyGet_setKey, if_pos rfl]

/-- Outside `locations`, `sources` and the four gap fields, the merged
finding reads as the primary. -/
theorem mergeFindings_get_primary (p s : PyDict) (k : String)
    (h1 : ¬k = "locations") (h2 : ¬k = "sources")
    (h3 : ¬k = "description") (h4 : ¬k = "impact")
    (h5 : ¬k = "remediation") (h6 : ¬k = "repro") :
    pyGet (mergeFindings p s) k = pyGet p k := by
  unfold mergeFindings
  rw [pyGet_gapFill_ne _ _ _ h3 h4 h5 h6,
    pyGet_setKey, if_neg h2, pyGet_setKey, if_neg h1]

/-- A truthy-or-empty-list read of a list value is that list. -/
theorem listOr_list (xs : List PyVal) :
    listOf (pyOr (.list xs) (.list [])) = xs := by
  by_cases h : xs.isEmpty
  · rw [List.isEmpty_iff.mp h]; rfl
  · simp [pyOr, pyTruthy, h, listOf]

/-- C5: deduplication never drops evidence. For two findings sharing a dedup
key whose `locations` fields are lists `la` and `lb`, the merged finding's
`locations` is the concatenation of the primary's then the secondary's
lists, and in either primary order its length is `la.length + lb.length`. -/
theorem dedup_evidence_union (a b : PyDict) (la lb : List PyVal)
    (hk : key_for a = key_for b)
    (hA : pyGet a "locations" = .list la)
    (hB : pyGet b "locations" = .list lb) :
    ∃ m, _dedupe_findings [a, b] = [m] ∧
      pyGet m "locations" =
        .list (if _rank_score a < _rank_score b then lb ++ la else la ++ lb) ∧
      (la ++ lb).length = la.length + lb.length ∧
      (lb ++ la).length = la.length + lb.length := by
  refine ⟨if _rank_score a < _rank_score b then mergeFindings b a
    else mergeFindings a b, dedupe_pair a b hk, ?_, by simp, by simp [Nat.add_comm]⟩
  by_cases hr : _rank_score a < _rank_score b <;>
    simp [hr, mergeFindings_locations, hA, hB, listOr_list]

/-- Witness for C5: two findings titled `t` on the same first location, one
location each. -/
theorem dedup_evidence_union_witness :
    let a : PyDict := [("title", PyVal.str "t"),
      ("locations", PyVal.list [.dict [("file", .str "a.sol"), ("line", .int 1)]])]
    let b : PyDict := [("title", PyVal.str "t"),
      ("locations", PyVal.list [.dict [("file", .str "a.sol"), ("line", .int 1),
        ("span", .str "7:3")]])]
    key_for a = key_for b ∧
    ∃ m, _dedupe_findings [a, b] = [m] ∧
      pyGet m "locations" =
        .list (if _rank_score a < _rank_score b
          then [PyVal.dict [("file", .str "a.sol"), ("line", .int 1), ("span", .str "7:3")],
                .dict [("file", .str "a.sol"), ("line", .int 1)]]
          else [PyVal.dict [("file", .str "a.sol"), ("line", .int 1)],
                .dict [("file", .str "a.sol"), ("line", .int 1), ("span", .str "7:3")]]) ∧
      ([PyVal.dict [("file", .str "a.sol"), ("line", .int 1)],
        PyVal.dict [("file", .str "a.sol"), ("line", .int 1), ("span", .str "7:3")]].length = 1 + 1) ∧
      ([PyVal.dict [("file", .str "a.sol"), ("line", .int 1), ("span", .str "7:3")],
        PyVal.dict [("file", .str "a.sol"), ("line", .int 1)]].length = 1 + 1) :=
  ⟨by decide,
    dedup_evidence_union _ _
      [.dict [("file", .str "a.sol"), ("line", .int 1)]]
      [.dict [("file", .str "a.sol"), ("line", .int 1), ("span", .str "7:3")]]
      (by decide) rfl rfl⟩

/-- C9: dedup tie-break is first-seen-wins. On a key collision of `a`
(earlier) and `b` (later), the merged finding's `title`, `severity`,
`confidence` and `raw` come from `a` whenever `b`'s rank score is not
strictly greater, and from `b` exactly when its score is strictly
greater. -/
theorem dedup_tiebreak_first_seen (a b : PyDict)
    (hk : key_for a = key_for b) :
    ∃ m, _dedupe_findings [a, b] = [m] ∧
      (_rank_score b ≤ _rank_score a →
        pyGet m "title" = pyGet a "title" ∧
        pyGet m "severity" = pyGet a "severity" ∧
        pyGet m "confidence" = pyGet a "confidence" ∧
        pyGet m "raw" = pyGet a "raw") ∧
      (_rank_score a < _rank_score b →
        pyGet m "title" = pyGet b "title" ∧
        pyGet m "severity" = pyGet b "severity" ∧
        pyGet m "confidence" = pyGet b "confidence" ∧
        pyGet m "raw" = pyGet b "raw") := by
  refine ⟨if _rank_score a < _rank_score b then mergeFindings b a
    else mergeFindings a b, dedupe_pair a b hk, ?_, ?_⟩
  · intro hle
    have hr : ¬_rank_score a < _rank_score b := not_lt.mpr hle
    simp only [if_neg hr]
    exact ⟨mergeFindings_get_primary a b "title" (by decide) (by decide)
        (by decide) (by decide) (by decide) (by decide),
      mergeFindings_get_primary a b "severity" (by decide) (by decide)
        (by decide) (by decide) (by decide) (by decide),
      mergeFindings_get_primary a b "confidence" (by decide) (by decide)
        (by decide) (by decide) (by decide) (by decide),
      mergeFindings_get_primary a b "raw" (by decide) (by decide)
        (by decide) (by decide) (by decide) (by decide)⟩
  · intro hlt
    simp only [if_pos hlt]
    exact ⟨mergeFindings_get_primary b a "title" (by decide) (by decide)
        (by decide) (by decide) (by decide) (by decide),
      mergeFindings_get_primary b a "severity" (by decide) (by decide)
        (by decide) (by decide) (by decide) (by decide),
      mergeFindings_get_primary b a "confidence" (by decide) (by decide)
        (by decide) (by decide) (by decide) (by decide),
      mergeFindings_get_primary b a "raw" (by decide) (by decide)
        (by decide) (by decide) (by decide) (by decide)⟩

/-- Witness for C9: two equal-scored findings titled `t`; the merge keeps
the earlier one's fields. -/
theorem dedup_tiebreak_first_seen_witness :
    let a : PyDict := [("title", PyVal.str "t"), ("severity", PyVal.str "LOW"),
      ("raw", PyVal.dict [("id", PyVal.str "from-a")])]
    let b : PyDict := [("title", PyVal.str "t"), ("severity", PyVal.str "LOW"),
      ("raw", PyVal.dict [("id", PyVal.str "from-b")])]
    key_for a = key_for b ∧ _rank_score b ≤ _rank_score a ∧
    ∃ m, _dedupe_findings [a, b] = [m] ∧
      (_rank_score b ≤ _rank_score a →
        pyGet m "title" = pyGet a "title" ∧
        pyGet m "severity" = pyGet a "severity" ∧
        pyGet m "confidence" = pyGet a "confidence" ∧
        pyGet m "raw" = pyGet a "raw") ∧
      (_rank_score a < _rank_score b →
        pyGet m "title" = pyGet b "title" ∧
        pyGet m "severity" = pyGet b "severity" ∧
        pyGet m "confidence" = pyGet b "confidence" ∧
        pyGet m "raw" = pyGet b "raw") :=
  ⟨by decide, by decide, dedup_tiebreak_first_seen _ _ (by decide)⟩

/-! ## C7: normalizer frame lemmas -/

/-- `nefTitle` only writes `title`. -/
theorem pyGet_nefTitle_ne (d : PyDict) (k : String) (h : ¬k = "title") :
    pyGet (nefTitle d) k = pyGet d k := by
  simp [nefTitle, pyGet_setKey, h]

/-- `nefSeverity` only writes `severity`. -/
theorem pyGet_nefSeverity_ne (d : PyDict) (k : String) (h : ¬k = "severity") :
    pyGet (nefSeverity d) k = pyGet d k := by
  simp [nefSeverity, pyGet_setKey, h]

/-- `nefImpact` only writes `impact`. -/
theorem pyGet_nefImpact_ne (d : PyDict) (k : String) (h : ¬k = "impact") :
    pyGet (nefImpact d) k = pyGet d k := by
  unfold nefImpact
  cases _normalize_severity (pyGet d "impact") <;> simp [pyGet_setKey, h]

/-- `nefConfidence` only writes `confidence`. -/
theorem pyGet_nefConfidence_ne (d : PyDict) (k : String)
    (h : ¬k = "confidence") : pyGet (nefConfidence d) k = pyGet d k := by
  simp [nefConfidence, pyGet_setKey, h]

/-- `nefLocations` only writes `locations`. -/
theorem pyGet_nefLocations_ne (d : PyDict) (k : String)
    (h : ¬k = "locations") : pyGet (nefLocations d) k = pyGet d k := by
  unfold nefLocations
  split <;> simp [pyGet_setKey, h]

/-- `nefSources` only writes `sources`. -/
theorem pyGet_nefSources_ne (d : PyDict) (k : String) (h : ¬k = "sources") :
    pyGet (nefSources d) k = pyGet d k := by
  unfold nefSources
  split <;> simp [pyGet_setKey, h]

/-- `_normalize_existing_finding` leaves every key outside
`{title, severity, impact, confidence, locations, sources}` unchanged. -/
theorem pyGet_nef_frame (d : PyDict) (k : String)
    (h1 : ¬k = "title") (h2 : ¬k = "severity") (h3 : ¬k = "impact")
    (h4 : ¬k = "confidence") (h5 : ¬k = "locations") (h6 : ¬k = "sources") :
    pyGet (_normalize_existing_finding d) k = pyGet d k := by
  unfold _normalize_existing_finding
  rw [pyGet_nefSources_ne _ _ h6, pyGet_nefLocations_ne _ _ h5,
    pyGet_nefConfidence_ne _ _ h4, pyGet_nefImpact_ne _ _ h3,
    pyGet_nefSeverity_ne _ _ h2, pyGet_nefTitle_ne _ _ h1]

/-- C7 (amended): the free-text fields `description`, `remediation` and
`repro` pass through `_normalize_existing_finding` unchanged, but `impact`
is canonicalized to the severity enum whenever it parses as a severity
(untouched otherwise); and the raw-record normalizer `_normalize_finding`
backfills `description` from `details`, does not lift `remediation`/`repro`
out of the raw record at all (they are absent on its output), and then
applies the same `impact` canonicalization. -/
theorem normalizer_passthrough (d : PyDict) (source severity : PyVal) :
    pyGet (_normalize_existing_finding d) "description" = pyGet d "description" ∧
    pyGet (_normalize_existing_finding d) "remediation" = pyGet d "remediation" ∧
    pyGet (_normalize_existing_finding d) "repro" = pyGet d "repro" ∧
    pyGet (_normalize_existing_finding d) "impact" =
      (match _normalize_severity (pyGet d "impact") with
       | some c => .str c
       | Option.none => pyGet d "impact") ∧
    pyGet (_normalize_finding d source severity) "description" =
      pyOr (pyGet d "description") (pyGet d "details") ∧
    pyGet (_normalize_finding d source severity) "remediation" = PyVal.none ∧
    pyGet (_normalize_finding d source severity) "repro" = PyVal.none := by
  have hframe := fun k h1 h2 h3 h4 h5 h6 => pyGet_nef_frame d k h1 h2 h3 h4 h5 h6
  refine ⟨hframe "description" (by decide) (by decide) (by decide) (by decide)
      (by decide) (by decide),
    hframe "remediation" (by decide) (by decide) (by decide) (by decide)
      (by decide) (by decide),
    hframe "repro" (by decide) (by decide) (by decide) (by decide)
      (by decide) (by decide), ?_, ?_, ?_, ?_⟩
  · unfold _normalize_existing_finding
    rw [pyGet_nefSources_ne _ _ (by decide), pyGet_nefLocations_ne _ _ (by decide),
      pyGet_nefConfidence_ne _ _ (by decide)]
    have himp : pyGet (nefSeverity (nefTitle d)) "impact" = pyGet d "impact" := by
      rw [pyGet_nefSeverity_ne _ _ (by decide), pyGet_nefTitle_ne _ _ (by decide)]
    unfold nefImpact
    rw [himp]
    cases _normalize_severity (pyGet d "impact") <;> simp [pyGet_setKey, himp]
  · unfold _normalize_finding
    rw [pyGet_nef_frame _ _ (by decide) (by decide) (by decide) (by decide)
      (by decide) (by decide)]
    rfl
  · unfold _normalize_finding
    rw [pyGet_nef_frame _ _ (by decide) (by decide) (by decide) (by decide)
      (by decide) (by decide)]
    rfl
  · unfold _normalize_finding
    rw [pyGet_nef_frame _ _ (by decide) (by decide) (by decide) (by decide)
      (by decide) (by decide)]
    rfl

/-- Counterexample to C7 as stated: an `impact` of `"High"` comes out of the
normalizer as `"HIGH"`, and a `remediation` present on the raw record is
absent on the Finding produced by `_normalize_finding`. -/
theorem normalizer_passthrough_cex :
    pyGet [("impact", PyVal.str "High")] "impact" = .str "High" ∧
    pyGet (_normalize_finding [("impact", PyVal.str "High")] (.str "slither"))
      "impact" = .str "HIGH" ∧
    PyVal.str "HIGH" ≠ PyVal.str "High" ∧
    pyGet [("remediation", PyVal.str "use checks-effects")] "remediation" =
      .str "use checks-effects" ∧
    pyGet (_normalize_finding [("remediation", PyVal.str "use checks-effects")]
      (.str "slither")) "remediation" = PyVal.none := by
  refine ⟨rfl, rfl, ?_, rfl, rfl⟩
  intro h
  injection h with h2
  exact absurd h2 (by decide)

/-! ## C10: zero confidence behaves as missing confidence -/

/-- The `confidence` field of a re-normalized finding is the normalized
value of its input `confidence` field (`None` when unparseable). -/
theorem pyGet_nef_confidence (L : PyDict) :
    pyGet (_normalize_existing_finding L) "confidence" =
      (match _normalize_confidence (pyGet L "confidence") with
       | some q => PyVal.float q
       | Option.none => PyVal.none) := by
  unfold _normalize_existing_finding
  rw [pyGet_nefSources_ne _ _ (by decide), pyGet_nefLocations_ne _ _ (by decide)]
  unfold nefConfidence
  rw [pyGet_setKey, if_pos rfl, pyGet_nefImpact_ne _ _ (by decide),
    pyGet_nefSeverity_ne _ _ (by decide), pyGet_nefTitle_ne _ _ (by decide)]

/-- C10 (amended): a raw confidence of numeric zero is treated exactly like
a missing confidence by `_normalize_finding` — it falls through to
`certainty`, so when the record's `certainty` is absent the produced Finding
has no confidence, which the confidence-threshold filter values at `0.5` and
the ranker at bucket `1`, not `0`. -/
theorem zero_confidence_as_missing (x : PyDict) (source sev : PyVal)
    (hconf : pyGet x "confidence" = .int 0 ∨ pyGet x "confidence" = .float 0)
    (hcert : pyGet x "certainty" = PyVal.none) :
    pyGet (_normalize_finding x source sev) "confidence" = PyVal.none ∧
    _filter_confidence (_normalize_finding x source sev) = 1 / 2 ∧
    _confidence_score (pyGet (_normalize_finding x source sev) "confidence") = 1 := by
  have hor : pyOr (pyGet x "confidence") (pyGet x "certainty") = PyVal.none := by
    rcases hconf with h | h <;> rw [h] <;>
      simp [pyOr, pyTruthy, hcert]
  have hkey : pyGet (_normalize_finding x source sev) "confidence" = PyVal.none := by
    unfold _normalize_finding
    rw [pyGet_nef_confidence]
    have hl : pyGet [("title", pyOr (pyGet x "title")
          (pyOr (pyGet x "check") (pyGet x "name"))),
        ("impact", pyOr (pyGet x "impact") (pyOr (pyGet x "severity") sev)),
        ("severity", pyOr (pyGet x "severity") sev),
        ("confidence", pyOr (pyGet x "confidence") (pyGet x "certainty")),
        ("description", pyOr (pyGet x "description") (pyGet x "details")),
        ("elements", (List.lookup "elements" x).getD (.list [])),
        ("source", source), ("raw", .dict x)] "confidence" =
        pyOr (pyGet x "confidence") (pyGet x "certainty") := by
      simp [pyGet, lookup_cons_str]
    rw [hl, hor]
    rfl
  refine ⟨hkey, ?_, by rw [hkey]; rfl⟩
  unfold _filter_confidence
  rw [hkey]
  rfl

/-- Witness for C10 at the record `{"confidence": 0}`. -/
theorem zero_confidence_as_missing_witness :
    (pyGet [("confidence", PyVal.int 0)] "confidence" = .int 0 ∨
      pyGet [("confidence", PyVal.int 0)] "confidence" = .float 0) ∧
    pyGet [("confidence", PyVal.int 0)] "certainty" = PyVal.none ∧
    pyGet (_normalize_finding [("confidence", PyVal.int 0)] (.str "slither") .none)
      "confidence" = PyVal.none ∧
    _filter_confidence (_normalize_finding [("confidence", PyVal.int 0)]
      (.str "slither") .none) = 1 / 2 ∧
    _confidence_score (pyGet (_normalize_finding [("confidence", PyVal.int 0)]
      (.str "slither") .none) "confidence") = 1 := by
  have h := zero_confidence_as_missing [("confidence", PyVal.int 0)]
    (.str "slither") .none (Or.inl rfl) rfl
  exact ⟨Or.inl rfl, rfl, h.1, h.2.1, h.2.2⟩

/-- Counterexample to C10 as stated: with a truthy `certainty` alongside the
zero confidence, the normalizer falls through to `certainty` and the Finding
carries confidence `1.0`, not an absent confidence. -/
theorem zero_confidence_as_missing_cex :
    pyGet [("confidence", PyVal.int 0), ("certainty", PyVal.int 1)]
      "confidence" = .int 0 ∧
    pyGet (_normalize_finding [("confidence", PyVal.int 0), ("certainty", PyVal.int 1)]
      (.str "slither") .none) "confidence" = .float 1 ∧
    PyVal.float 1 ≠ PyVal.none := by
  refine ⟨rfl, ?_, fun h => PyVal.noConfusion h⟩
  have h1 : _normalize_confidence (.int 1) = some 1 := by
    have hcast : _normalize_confidence (.int 1) =
        _normalize_confidence (.float ((1 : ℤ) : ℚ)) :=
      confidence_canonicalization.2.2.2.1 1
    rw [hcast]
    have : ((1 : ℤ) : ℚ) = 1 := by norm_num
    rw [this]
    exact confidence_canonicalization.2.1 1 (by norm_num) (by norm_num)
  unfold _normalize_finding
  rw [pyGet_nef_confidence]
  have hl : pyGet [("title", pyOr (pyGet [("confidence", PyVal.int 0),
        ("certainty", PyVal.int 1)] "title")
        (pyOr (pyGet [("confidence", PyVal.int 0), ("certainty", PyVal.int 1)] "check")
          (pyGet [("confidence", PyVal.int 0), ("certainty", PyVal.int 1)] "name"))),
      ("impact", pyOr (pyGet [("confidence", PyVal.int 0), ("certainty", PyVal.int 1)]
          "impact")
        (pyOr (pyGet [("confidence", PyVal.int 0), ("certainty", PyVal.int 1)]
          "severity") .none)),
      ("severity", pyOr (pyGet [("confidence", PyVal.int 0), ("certainty", PyVal.int 1)]
        "severity") .none),
      ("confidence", pyOr (pyGet [("confidence", PyVal.int 0), ("certainty", PyVal.int 1)]
          "confidence")
        (pyGet [("confidence", PyVal.int 0), ("certainty", PyVal.int 1)] "certainty")),
      ("description", pyOr (pyGet [("confidence", PyVal.int 0), ("certainty", PyVal.int 1)]
          "description")
        (pyGet [("confidence", PyVal.int 0), ("certainty", PyVal.int 1)] "details")),
      ("elements", (List.lookup "elements" [("confidence", PyVal.int 0),
        ("certainty", PyVal.int 1)]).getD (.list [])),
      ("source", PyVal.str "slither"),
      ("raw", .dict [("confidence", PyVal.int 0), ("certainty", PyVal.int 1)])]
      "confidence" = PyVal.int 1 := rfl
  rw [hl, h1]

/-! ## C4: location dedup invariants -/

/-- `tripleBeq` is reflexive. -/
theorem tripleBeq_refl (t : PyVal × PyVal × PyVal) : tripleBeq t t = true := by
  simp [tripleBeq, PyVal.beq_refl]

/-- `uniqueLocs` output triples are distinct and avoid the seen set. -/
theorem uniqueLocs_nodup (ls : List PyVal)
    (seen : List (PyVal × PyVal × PyVal)) :
    ((uniqueLocs ls seen).map locTriple).Nodup ∧
    ∀ x ∈ uniqueLocs ls seen,
      (seen.any fun s => tripleBeq s (locTriple x)) = false := by
  induction ls generalizing seen with
  | nil => simp [uniqueLocs]
  | cons l t ih =>
      by_cases h : (seen.any fun s => tripleBeq s (locTriple l)) = true
      · rw [show uniqueLocs (l :: t) seen = uniqueLocs t seen by
          simp [uniqueLocs, h]]
        exact ih seen
      · have hfalse : (seen.any fun s => tripleBeq s (locTriple l)) = false :=
          Bool.eq_false_iff.mpr h
        rw [show uniqueLocs (l :: t) seen =
            l :: uniqueLocs t (locTriple l :: seen) by simp [uniqueLocs, h]]
        obtain ⟨ihnodup, ihnotin⟩ := ih (locTriple l :: seen)
        refine ⟨?_, ?_⟩
        · rw [List.map_cons, List.nodup_cons]
          refine ⟨?_, ihnodup⟩
          intro hmem
          obtain ⟨x, hx, hxeq⟩ := List.mem_map.mp hmem
          have hnot := ihnotin x hx
          rw [List.any_cons] at hnot
          have h1 : tripleBeq (locTriple l) (locTriple x) = false :=
            (Bool.or_eq_false_iff.mp hnot).1
          rw [← hxeq, tripleBeq_refl] at h1
          exact Bool.false_ne_true h1.symm
        · intro x hx
          rcases List.mem_cons.mp hx with rfl | hx'
          · exact hfalse
          · have hnot := ihnotin x hx'
            rw [List.any_cons] at hnot
            exact (Bool.or_eq_false_iff.mp hnot).2

/-- C4 (amended positive part): the location extractor never produces two
entries with the same `(file, line, span)` triple. -/
theorem extract_locations_nodup (f : PyDict) :
    ((_extract_locations f).map locTriple).Nodup :=
  (uniqueLocs_nodup _ []).1

/-- Counterexample to C4 as stated: two findings reporting the same
title/location run through the full pipeline (normalize → dedupe →
evidence filter → rule filter → heuristic rank, empty filter config); the
dedup merge concatenates their location lists, so the produced Finding
carries the identical `(file, line, span)` triple twice. -/
theorem pipeline_locations_dup_cex :
    triage_findings (OsEnv.mk Option.none Option.none Option.none Option.none)
        [] (fun _ => Option.none) (fun _ => .error ()) .netError
        (.error .runtimeError)
        [[("title", .str "Foo"), ("locations", .list
            [PyVal.dict [("file", PyVal.str "A.sol"), ("line", PyVal.int 1)]])],
         [("title", .str "Foo"), ("locations", .list
            [PyVal.dict [("file", PyVal.str "A.sol"), ("line", PyVal.int 1)]])]]
        2 false =
      .ok [[("title", PyVal.str "Foo"),
        ("locations", PyVal.list
          [PyVal.dict [("file", PyVal.str "A.sol"), ("line", PyVal.int 1)],
           PyVal.dict [("file", PyVal.str "A.sol"), ("line", PyVal.int 1)]]),
        ("severity", PyVal.str "LOW"), ("confidence", PyVal.none),
        ("sources", PyVal.list [])]] ∧
    ¬(List.map locTriple
        [PyVal.dict [("file", PyVal.str "A.sol"), ("line", PyVal.int 1)],
         PyVal.dict [("file", PyVal.str "A.sol"), ("line", PyVal.int 1)]]).Nodup := by
  refine ⟨rfl, ?_⟩
  simp [List.nodup_cons]

/-! ## C3: idempotence machinery for `_normalize_existing_finding` -/

/-- The key written by `setKey` is present afterwards with that value. -/
theorem lookup_setKey_self (d : PyDict) (k : String) (v : PyVal) :
    List.lookup k (setKey d k v) = some v := by
  induction d with
  | nil => simp [setKey, lookup_cons_str]
  | cons hd tl ih =>
      obtain ⟨k₀, v₀⟩ := hd
      by_cases h : k₀ = k
      · subst h; simp [setKey, lookup_cons_str]
      · simp only [setKey, if_neg h]
        rw [lookup_cons_str, if_neg fun hh => h hh.symm]
        exact ih

/-- `setKey` on one key does not disturb lookups of another. -/
theorem lookup_setKey_ne (d : PyDict) (k' : String) (v : PyVal) (k : String)
    (h : ¬k = k') : List.lookup k (setKey d k' v) = List.lookup k d := by
  induction d with
  | nil =>
      show List.lookup k [(k', v)] = List.lookup k []
      rw [lookup_cons_str, if_neg h]
  | cons hd tl ih =>
      obtain ⟨k₀, v₀⟩ := hd
      by_cases h0 : k₀ = k'
      · subst h0
        have hset : setKey ((k₀, v₀) :: tl) k₀ v = (k₀, v) :: tl := by
          simp [setKey]
        rw [hset, lookup_cons_str, lookup_cons_str, if_neg h, if_neg h]
      · have hset : setKey ((k₀, v₀) :: tl) k' v = (k₀, v₀) :: setKey tl k' v := by
          simp [setKey, h0]
        rw [hset, lookup_cons_str, lookup_cons_str]
        by_cases hk0 : k = k₀ <;> simp [hk0, ih]

/-- Lookup-level frame for `nefTitle`. -/
theorem lookup_nefTitle_ne (d : PyDict) (k : String) (h : ¬k = "title") :
    List.lookup k (nefTitle d) = List.lookup k d :=
  lookup_setKey_ne _ _ _ _ h

/-- Lookup-level frame for `nefSeverity`. -/
theorem lookup_nefSeverity_ne (d : PyDict) (k : String) (h : ¬k = "severity") :
    List.lookup k (nefSeverity d) = List.lookup k d :=
  lookup_setKey_ne _ _ _ _ h

/-- Lookup-level frame for `nefImpact`. -/
theorem lookup_nefImpact_ne (d : PyDict) (k : String) (h : ¬k = "impact") :
    List.lookup k (nefImpact d) = List.lookup k d := by
  unfold nefImpact
  cases _normalize_severity (pyGet d "impact") with
  | none => rfl
  | some c => exact lookup_setKey_ne _ _ _ _ h

/-- Lookup-level frame for `nefConfidence`. -/
theorem lookup_nefConfidence_ne (d : PyDict) (k : String)
    (h : ¬k = "confidence") :
    List.lookup k (nefConfidence d) = List.lookup k d :=
  lookup_setKey_ne _ _ _ _ h

/-- Lookup-level frame for `nefLocations`. -/
theorem lookup_nefLocations_ne (d : PyDict) (k : String)
    (h : ¬k = "locations") :
    List.lookup k (nefLocations d) = List.lookup k d := by
  unfold nefLocations
  split
  · rfl
  · exact lookup_setKey_ne _ _ _ _ h

/-- Lookup-level frame for `nefSources`. -/
theorem lookup_nefSources_ne (d : PyDict) (k : String) (h : ¬k = "sources") :
    List.lookup k (nefSources d) = List.lookup k d := by
  unfold nefSources
  split
  · exact lookup_setKey_ne _ _ _ _ h
  · rfl

/-- A truthy right disjunct makes `pyOr` truthy. -/
theorem pyOr_truthy_of_right (a b : PyVal) (h : pyTruthy b = true) :
    pyTruthy (pyOr a b) = true := by
  unfold pyOr; split <;> simp [*]

/-- `pyOr` returns its left operand when truthy. -/
theorem pyOr_of_truthy (a b : PyVal) (h : pyTruthy a = true) :
    pyOr a b = a := if_pos h

/-- `confScale` is the identity on `[0, 1]`. -/
theorem confScale_fix (q : ℚ) (h0 : 0 ≤ q) (h1 : q ≤ 1) : confScale q = q := by
  unfold confScale
  have hc : ¬(1 < q ∧ q ≤ 100) := fun hc => absurd h1 (not_le.mpr hc.1)
  simp [hc, min_eq_right h1, max_eq_right h0]

/-- `_extract_locations` reads only the `raw` and `elements` fields. -/
theorem extract_locations_congr (d d' : PyDict)
    (hraw : pyGet d "raw" = pyGet d' "raw")
    (hel : pyGet d "elements" = pyGet d' "elements") :
    _extract_locations d = _extract_locations d' := by
  unfold _extract_locations
  rw [hraw, hel]

/-- The first four normalization steps (title, severity, impact,
confidence), shared by the idempotence lemmas below. -/
def nefPre (d : PyDict) : PyDict :=
  nefConfidence (nefImpact (nefSeverity (nefTitle d)))

/-- `_normalize_existing_finding` factored through `nefPre`. -/
theorem nef_eq (d : PyDict) :
    _normalize_existing_finding d = nefSources (nefLocations (nefPre d)) := rfl

/-- Re-running the title step on a normalized finding changes nothing: the
stored title is always truthy. -/
theorem nefTitle_idem (d : PyDict) :
    nefTitle (_normalize_existing_finding d) = _normalize_existing_finding d := by
  have hlk : List.lookup "title" (_normalize_existing_finding d) =
      some (pyOr (pyGet d "title") (pyOr (pyGet d "check")
        (pyOr (pyGet d "name") (.str "Untitled finding")))) := by
    rw [nef_eq]
    rw [lookup_nefSources_ne _ _ (by decide), lookup_nefLocations_ne _ _ (by decide)]
    unfold nefPre
    rw [lookup_nefConfidence_ne _ _ (by decide), lookup_nefImpact_ne _ _ (by decide),
      lookup_nefSeverity_ne _ _ (by decide)]
    exact lookup_setKey_self _ _ _
  have hget : pyGet (_normalize_existing_finding d) "title" =
      pyOr (pyGet d "title") (pyOr (pyGet d "check")
        (pyOr (pyGet d "name") (.str "Untitled finding"))) := by
    unfold pyGet; rw [hlk]; rfl
  have htr : pyTruthy (pyOr (pyGet d "title") (pyOr (pyGet d "check")
      (pyOr (pyGet d "name") (.str "Untitled finding")))) = true :=
    pyOr_truthy_of_right _ _ (pyOr_truthy_of_right _ _
      (pyOr_truthy_of_right _ _ (by decide)))
  unfold nefTitle
  rw [hget, pyOr_of_truthy _ _ htr]
  exact setKey_eq_self _ _ _ hlk

/-- Re-running the severity step on a normalized finding changes nothing:
the stored severity is canonical, hence a fixed point of the canon. -/
theorem nefSeverity_idem (d : PyDict) :
    nefSeverity (_normalize_existing_finding d) = _normalize_existing_finding d := by
  have hlk : List.lookup "severity" (_normalize_existing_finding d) =
      some (.str (match _normalize_severity (pyGet (nefTitle d) "severity") with
        | some c => c
        | Option.none =>
            (_normalize_severity (pyGet (nefTitle d) "impact")).getD "LOW")) := by
    rw [nef_eq]
    rw [lookup_nefSources_ne _ _ (by decide), lookup_nefLocations_ne _ _ (by decide)]
    unfold nefPre
    rw [lookup_nefConfidence_ne _ _ (by decide), lookup_nefImpact_ne _ _ (by decide)]
    exact lookup_setKey_self _ _ _
  have hcanon : (match _normalize_severity (pyGet (nefTitle d) "severity") with
      | some c => c
      | Option.none =>
          (_normalize_severity (pyGet (nefTitle d) "impact")).getD "LOW") ∈
      ["CRITICAL", "HIGH", "MEDIUM", "LOW", "INFORMATIONAL"] := by
    cases h1 : _normalize_severity (pyGet (nefTitle d) "severity") with
    | some c => simpa using ns_canon _ _ h1
    | none =>
        cases h2 : _normalize_severity (pyGet (nefTitle d) "impact") with
        | some c => simpa using ns_canon _ _ h2
        | none => decide
  have hfix := sev_canon_fix _ hcanon
  have hget : pyGet (_normalize_existing_finding d) "severity" =
      .str (match _normalize_severity (pyGet (nefTitle d) "severity") with
        | some c => c
        | Option.none =>
            (_normalize_severity (pyGet (nefTitle d) "impact")).getD "LOW") := by
    unfold pyGet; rw [hlk]; rfl
  unfold nefSeverity
  rw [hget, hfix]
  exact setKey_eq_self _ _ _ hlk

/-- Re-running the impact step on a normalized finding changes nothing. -/
theorem nefImpact_idem (d : PyDict) :
    nefImpact (_normalize_existing_finding d) = _normalize_existing_finding d := by
  cases h0 : _normalize_severity (pyGet (nefSeverity (nefTitle d)) "impact") with
  | some c =>
      have hw : nefImpact (nefSeverity (nefTitle d)) =
          setKey (nefSeverity (nefTitle d)) "impact" (.str c) := by
        unfold nefImpact; rw [h0]
      have hlk : List.lookup "impact" (_normalize_existing_finding d) =
          some (.str c) := by
        rw [nef_eq]
        rw [lookup_nefSources_ne _ _ (by decide),
          lookup_nefLocations_ne _ _ (by decide)]
        unfold nefPre
        rw [lookup_nefConfidence_ne _ _ (by decide), hw]
        exact lookup_setKey_self _ _ _
      have hget : pyGet (_normalize_existing_finding d) "impact" = .str c := by
        unfold pyGet; rw [hlk]; rfl
      have hfix : _normalize_severity (.str c) = some c := ns_fix _ _ h0
      unfold nefImpact
      rw [hget, hfix]
      exact setKey_eq_self _ _ _ hlk
  | none =>
      have hid : nefImpact (nefSeverity (nefTitle d)) = nefSeverity (nefTitle d) := by
        unfold nefImpact; rw [h0]
      have hget : pyGet (_normalize_existing_finding d) "impact" =
          pyGet (nefSeverity (nefTitle d)) "impact" := by
        rw [nef_eq]
        rw [pyGet_nefSources_ne _ _ (by decide), pyGet_nefLocations_ne _ _ (by decide)]
        unfold nefPre
        rw [pyGet_nefConfidence_ne _ _ (by decide), hid]
      unfold nefImpact
      rw [hget, h0]

/-- Re-running the confidence step on a normalized finding changes nothing:
the stored confidence is `None` or a clamped value in `[0, 1]`, on which the
normalizer is the identity. -/
theorem nefConfidence_idem (d : PyDict) :
    nefConfidence (_normalize_existing_finding d) = _normalize_existing_finding d := by
  cases h0 : _normalize_confidence
      (pyGet (nefImpact (nefSeverity (nefTitle d))) "confidence") with
  | none =>
      have hw : nefConfidence (nefImpact (nefSeverity (nefTitle d))) =
          setKey (nefImpact (nefSeverity (nefTitle d))) "confidence" PyVal.none := by
        unfold nefConfidence; rw [h0]
      have hlk : List.lookup "confidence" (_normalize_existing_finding d) =
          some PyVal.none := by
        rw [nef_eq]
        rw [lookup_nefSources_ne _ _ (by decide),
          lookup_nefLocations_ne _ _ (by decide)]
        unfold nefPre
        rw [hw]
        exact lookup_setKey_self _ _ _
      have hget : pyGet (_normalize_existing_finding d) "confidence" = PyVal.none := by
        unfold pyGet; rw [hlk]; rfl
      unfold nefConfidence
      rw [hget]
      exact setKey_eq_self _ _ _ hlk
  | some q =>
      have hq := normalize_confidence_range _ _ h0
      have hw : nefConfidence (nefImpact (nefSeverity (nefTitle d))) =
          setKey (nefImpact (nefSeverity (nefTitle d))) "confidence" (.float q) := by
        unfold nefConfidence; rw [h0]
      have hlk : List.lookup "confidence" (_normalize_existing_finding d) =
          some (.float q) := by
        rw [nef_eq]
        rw [lookup_nefSources_ne _ _ (by decide),
          lookup_nefLocations_ne _ _ (by decide)]
        unfold nefPre
        rw [hw]
        exact lookup_setKey_self _ _ _
      have hget : pyGet (_normalize_existing_finding d) "confidence" = .float q := by
        unfold pyGet; rw [hlk]; rfl
      have hnc : _normalize_confidence (.float q) = some q := by
        simp [_normalize_confidence, confScale_fix q hq.1 hq.2]
      unfold nefConfidence
      rw [hget, hnc]
      exact setKey_eq_self _ _ _ hlk

/-- Re-running the locations step on a normalized finding changes nothing:
either the stored locations are truthy (so the step skips), or they are the
empty extraction result, which re-extracts identically because `raw` and
`elements` were never touched. -/
theorem nefLocations_idem (d : PyDict) :
    nefLocations (_normalize_existing_finding d) = _normalize_existing_finding d := by
  by_cases ht : pyTruthy (pyGet (nefPre d) "locations") = true
  · have hid : nefLocations (nefPre d) = nefPre d := by
      unfold nefLocations; rw [if_pos ht]
    have hget : pyGet (_normalize_existing_finding d) "locations" =
        pyGet (nefPre d) "locations" := by
      rw [nef_eq, pyGet_nefSources_ne _ _ (by decide), hid]
    unfold nefLocations
    rw [hget, if_pos ht]
  · have hw : nefLocations (nefPre d) =
        setKey (nefPre d) "locations" (.list (_extract_locations (nefPre d))) := by
      unfold nefLocations; rw [if_neg ht]
    have hlk : List.lookup "locations" (_normalize_existing_finding d) =
        some (.list (_extract_locations (nefPre d))) := by
      rw [nef_eq, lookup_nefSources_ne _ _ (by decide), hw]
      exact lookup_setKey_self _ _ _
    have hget : pyGet (_normalize_existing_finding d) "locations" =
        .list (_extract_locations (nefPre d)) := by
      unfold pyGet; rw [hlk]; rfl
    have hcong : _extract_locations (_normalize_existing_finding d) =
        _extract_locations (nefPre d) := by
      refine extract_locations_congr _ _ ?_ ?_
      · rw [nef_eq, pyGet_nefSources_ne _ _ (by decide), hw,
          pyGet_setKey, if_neg (by decide)]
      · rw [nef_eq, pyGet_nefSources_ne _ _ (by decide), hw,
          pyGet_setKey, if_neg (by decide)]
    by_cases hE : pyTruthy (.list (_extract_locations (nefPre d))) = true
    · unfold nefLocations
      rw [hget, if_pos hE]
    · unfold nefLocations
      rw [hget, if_neg hE, hcong]
      exact setKey_eq_self _ _ _ hlk

/-- Re-running the sources step on a normalized finding changes nothing:
filtering an already-filtered list is the identity. -/
theorem nefSources_idem (d : PyDict) :
    nefSources (_normalize_existing_finding d) = _normalize_existing_finding d := by
  cases h0 : pyGet (nefLocations (nefPre d)) "sources" with
  | list xs =>
      have hw : nefSources (nefLocations (nefPre d)) =
          setKey (nefLocations (nefPre d)) "sources" (.list (xs.filter pyTruthy)) := by
        unfold nefSources; rw [h0]
      have hlk : List.lookup "sources" (_normalize_existing_finding d) =
          some (.list (xs.filter pyTruthy)) := by
        rw [nef_eq, hw]
        exact lookup_setKey_self _ _ _
      have hget : pyGet (_normalize_existing_finding d) "sources" =
          .list (xs.filter pyTruthy) := by
        unfold pyGet; rw [hlk]; rfl
      have hff : (xs.filter pyTruthy).filter pyTruthy = xs.filter pyTruthy :=
        List.filter_eq_self.mpr fun a ha => List.of_mem_filter ha
      have hstep : nefSources (_normalize_existing_finding d) =
          setKey (_normalize_existing_finding d) "sources"
            (.list ((xs.filter pyTruthy).filter pyTruthy)) := by
        unfold nefSources; rw [hget]
      rw [hstep, hff]
      exact setKey_eq_self _ _ _ hlk
  | none =>
      have hid : nefSources (nefLocations (nefPre d)) = nefLocations (nefPre d) := by
        unfold nefSources; rw [h0]
      have hget : pyGet (_normalize_existing_finding d) "sources" =
          pyGet (nefLocations (nefPre d)) "sources" := by
        rw [nef_eq, hid]
      unfold nefSources
      rw [hget, h0]
  | bool b =>
      have hid : nefSources (nefLocations (nefPre d)) = nefLocations (nefPre d) := by
        unfold nefSources; rw [h0]
      have hget : pyGet (_normalize_existing_finding d) "sources" =
          pyGet (nefLocations (nefPre d)) "sources" := by
        rw [nef_eq, hid]
      unfold nefSources
      rw [hget, h0]
  | int n =>
      have hid : nefSources (nefLocations (nefPre d)) = nefLocations (nefPre d) := by
        unfold nefSources; rw [h0]
      have hget : pyGet (_normalize_existing_finding d) "sources" =
          pyGet (nefLocations (nefPre d)) "sources" := by
        rw [nef_eq, hid]
      unfold nefSources
      rw [hget, h0]
  | float q =>
      have hid : nefSources (nefLocations (nefPre d)) = nefLocations (nefPre d) := by
        unfold nefSources; rw [h0]
      have hget : pyGet (_normalize_existing_finding d) "sources" =
          pyGet (nefLocations (nefPre d)) "sources" := by
        rw [nef_eq, hid]
      unfold nefSources
      rw [hget, h0]
  | str s =>
      have hid : nefSources (nefLocations (nefPre d)) = nefLocations (nefPre d) := by
        unfold nefSources; rw [h0]
      have hget : pyGet (_normalize_existing_finding d) "sources" =
          pyGet (nefLocations (nefPre d)) "sources" := by
        rw [nef_eq, hid]
      unfold nefSources
      rw [hget, h0]
  | dict es =>
      have hid : nefSources (nefLocations (nefPre d)) = nefLocations (nefPre d) := by
        unfold nefSources; rw [h0]
      have hget : pyGet (_normalize_existing_finding d) "sources" =
          pyGet (nefLocations (nefPre d)) "sources" := by
        rw [nef_eq, hid]
      unfold nefSources
      rw [hget, h0]

/-- C3 (amended): the re-normalization pass is idempotent — applying
`_normalize_existing_finding` twice equals applying it once, as full dict
equality (hence the same severity, confidence and location set); and since
`_normalize_finding` ends in that pass, re-normalizing a produced Finding
the way the pipeline does (through `_normalize_existing_finding`) changes
nothing at all. Re-running `_normalize_finding` itself, which re-wraps
`raw`, is not idempotent (see the counterexample). -/
theorem normalize_idempotent (d : PyDict) (source severity : PyVal) :
    _normalize_existing_finding (_normalize_existing_finding d) =
      _normalize_existing_finding d ∧
    _normalize_existing_finding (_normalize_finding d source severity) =
      _normalize_finding d source severity := by
  have key : ∀ x : PyDict,
      _normalize_existing_finding (_normalize_existing_finding x) =
        _normalize_existing_finding x := by
    intro x
    calc _normalize_existing_finding (_normalize_existing_finding x)
        = nefSources (nefLocations (nefConfidence (nefImpact (nefSeverity
            (nefTitle (_normalize_existing_finding x)))))) := rfl
      _ = _normalize_existing_finding x := by
          rw [nefTitle_idem, nefSeverity_idem, nefImpact_idem,
            nefConfidence_idem, nefLocations_idem, nefSources_idem]
  exact ⟨key d, key _⟩

/-- Counterexample to C3 as stated: re-running `_normalize_finding` on its
own output loses the location set. The raw record's `instances` produce one
location on the first run; the second run wraps the Finding as the new
`raw`, which has no `instances`, so extraction comes back empty. -/
theorem normalize_idempotent_cex :
    pyGet (_normalize_finding
        [("instances", PyVal.list [.dict [("file", .str "A.sol"), ("line_no", .int 3)]])]
        (.str "slither")) "locations" =
      .list [.dict [("file", PyVal.str "A.sol"), ("line", PyVal.int 3)]] ∧
    pyGet (_normalize_finding (_normalize_finding
        [("instances", PyVal.list [.dict [("file", .str "A.sol"), ("line_no", .int 3)]])]
        (.str "slither")) (.str "slither")) "locations" = .list [] ∧
    PyVal.list [.dict [("file", PyVal.str "A.sol"), ("line", PyVal.int 3)]] ≠
      PyVal.list [] := by
  refine ⟨rfl, rfl, ?_⟩
  intro h
  injection h with h2
  exact List.noConfusion h2

/-! ## C1: classifier failure fallback -/

/-- C1 (amended): when the classifier is configured through an API key and
the classifier path raises a `requests.RequestException` or a `ValueError`
(network failure, HTTP error status, body that is not valid JSON, content
that is not valid JSON), `triage_findings` does not propagate the exception:
it returns the heuristic ranking of the filtered (snippet-attached)
findings. Structurally unexpected but valid-JSON responses instead raise an
uncaught `KeyError`/`IndexError`/`TypeError` (see the counterexample). -/
theorem triage_classifier_fallback (env : OsEnv) (cfg : PyDict)
    (fs : String → Option (List String))
    (jsonLoads : String → Except Unit PyVal) (llm : HttpOutcome)
    (ollamaResult : Except PyError PyVal) (detectors : List PyDict)
    (max_issues : Nat) (att : List PyDict) (e : PyError)
    (hapi : envTruthy env.openai_api_key = true)
    (hatt : _attach_snippets fs (triage_filtered env cfg detectors) = .ok att)
    (hcall : call_llm jsonLoads llm = .error e)
    (he : e = .requestException ∨ e = .valueError) :
    triage_findings env cfg fs jsonLoads llm ollamaResult detectors
        max_issues true = .ok (heuristic_rank att max_issues) := by
  unfold triage_findings
  by_cases hd : detectors.isEmpty
  · rw [if_pos hd]
    have hdet : detectors = [] := List.isEmpty_iff.mp hd
    subst hdet
    have h0 : _attach_snippets fs (triage_filtered env cfg []) =
        .ok ([] : List PyDict) := rfl
    rw [h0] at hatt
    cases hatt
    simp [heuristic_rank, pySortDesc]
  · rw [if_neg hd]
    by_cases hf : (triage_filtered env cfg detectors).isEmpty
    · rw [if_pos hf]
      have hfe : triage_filtered env cfg detectors = [] := List.isEmpty_iff.mp hf
      rw [hfe] at hatt
      have h0 : _attach_snippets fs ([] : List PyDict) = .ok ([] : List PyDict) := rfl
      rw [h0] at hatt
      cases hatt
      simp [heuristic_rank, pySortDesc]
    · rw [if_neg hf]
      rw [hapi]
      simp only [Bool.not_true, Bool.false_and, Bool.false_eq_true, if_false,
        if_true]
      rw [hatt, hcall]
      rcases he with rfl | rfl <;> simp

/-- Witness for C1: an API key is configured, the POST raises a network
error, and triage returns the heuristic ranking of the filtered findings. -/
theorem triage_classifier_fallback_witness :
    envTruthy (OsEnv.mk (some "k") Option.none Option.none
      Option.none).openai_api_key = true ∧
    _attach_snippets (fun _ => Option.none)
      (triage_filtered (OsEnv.mk (some "k") Option.none Option.none Option.none) []
        [[("title", .str "Foo"), ("locations", .list
          [.dict [("file", .str "A.sol"), ("line", .int 1)]])]]) =
      .ok [[("title", PyVal.str "Foo"), ("locations", PyVal.list
        [.dict [("file", PyVal.str "A.sol"), ("line", PyVal.int 1)]]),
        ("severity", PyVal.str "LOW"), ("confidence", PyVal.none)]] ∧
    call_llm (fun _ => .error ()) .netError = .error .requestException ∧
    triage_findings (OsEnv.mk (some "k") Option.none Option.none Option.none) []
        (fun _ => Option.none) (fun _ => .error ()) .netError
        (.error .runtimeError)
        [[("title", .str "Foo"), ("locations", .list
          [.dict [("file", .str "A.sol"), ("line", .int 1)]])]] 2 true =
      .ok (heuristic_rank
        [[("title", PyVal.str "Foo"), ("locations", PyVal.list
          [.dict [("file", PyVal.str "A.sol"), ("line", PyVal.int 1)]]),
          ("severity", PyVal.str "LOW"), ("confidence", PyVal.none)]] 2) :=
  ⟨rfl, rfl, rfl,
    triage_classifier_fallback
      (OsEnv.mk (some "k") Option.none Option.none Option.none) []
      (fun _ => Option.none) (fun _ => .error ()) .netError
      (.error .runtimeError)
      [[("title", .str "Foo"), ("locations", .list
        [.dict [("file", .str "A.sol"), ("line", .int 1)]])]] 2
      [[("title", PyVal.str "Foo"), ("locations", PyVal.list
        [.dict [("file", PyVal.str "A.sol"), ("line", PyVal.int 1)]]),
        ("severity", PyVal.str "LOW"), ("confidence", PyVal.none)]]
      .requestException rfl rfl rfl (Or.inl rfl)⟩

/-- Counterexample to C1 as stated: a classifier HTTP 200 response whose
body parses as the valid-JSON-but-structurally-invalid object `{}` makes
`payload["choices"]` raise `KeyError`, which the
`except (RequestException, ValueError)` handler does not catch, so
`triage_findings` propagates an exception instead of returning the
heuristic ranking. -/
theorem triage_classifier_fallback_cex :
    call_llm (fun _ => .ok (.dict [])) (.resp 200 "x") = .error .keyError ∧
    triage_findings (OsEnv.mk (some "k") Option.none Option.none Option.none) []
        (fun _ => Option.none) (fun _ => .ok (.dict [])) (.resp 200 "x")
        (.error .runtimeError)
        [[("title", .str "Foo"), ("locations", .list
          [.dict [("file", .str "A.sol"), ("line", .int 1)]])]] 2 true =
      .error .keyError := ⟨rfl, rfl⟩
